import Mathlib

/-!
Shallow embedding of the entity-resolution engine in
`service/resolver/resolution.py`.

Database effects are modelled by explicit state passing over a `DB` value,
JSON values decoded by the database driver or by `json.loads` are modelled by
the inductive `PyJson`, and the external collaborators (`embed`, `json.loads`,
`sha256`, `uuid.uuid4`, the `EMBEDDINGS_MODEL` environment variable) are
passed in as explicit function parameters.  Similarity scores and thresholds
are modelled over `ℚ`.
-/

namespace Resolver

/-- A JSON-like value as decoded by the database driver or `json.loads`. -/
inductive PyJson where
  | jstr (s : String)
  | jnum (n : Int)
  | jbool (b : Bool)
  | jnull
  | jarr (l : List PyJson)
  | jobj (m : List (String × PyJson))
deriving Repr

/-- Python truthiness (`if v:`) on a decoded JSON value. -/
def pyTruthy : PyJson → Bool
  | .jstr s => s ≠ ""
  | .jnum n => n ≠ 0
  | .jbool b => b
  | .jnull => false
  | .jarr l => !l.isEmpty
  | .jobj m => !m.isEmpty

mutual

/-- Python `str(v)` on a decoded JSON value. -/
def pyStr : PyJson → String
  | .jstr s => s
  | .jnum n => toString n
  | .jbool b => if b then "True" else "False"
  | .jnull => "None"
  | .jarr l => "[" ++ pyStrList l ++ "]"
  | .jobj m => "\x7b" ++ pyStrObj m ++ "\x7d"

/-- Comma-separated rendering of list elements. -/
def pyStrList : List PyJson → String
  | [] => ""
  | [x] => pyStr x
  | x :: xs => pyStr x ++ ", " ++ pyStrList xs

/-- Comma-separated rendering of object entries. -/
def pyStrObj : List (String × PyJson) → String
  | [] => ""
  | [(k, v)] => k ++ ": " ++ pyStr v
  | (k, v) :: xs => k ++ ": " ++ pyStr v ++ ", " ++ pyStrObj xs

end

/-- Python `s.strip()`: drop leading and trailing whitespace. -/
def pyStrip (s : String) : String :=
  String.mk
    (((s.data.dropWhile Char.isWhitespace).reverse.dropWhile
      Char.isWhitespace).reverse)

/-- Python `s.lower()` on the characters of the string. -/
def pyLower (s : String) : String :=
  String.mk (s.data.map Char.toLower)

/-- True exactly when the value is structurally a JSON object (a map). -/
def isMapB : PyJson → Bool
  | .jobj _ => true
  | _ => false

/-- Lookup in a string-keyed association list, modelling `dict.get(k)`. -/
def lookup (m : List (String × String)) (k : String) : Option String :=
  (m.find? fun p => p.1 == k).map (·.2)

/-- Python `a or default` for an optional string value: a missing, `None` or
empty value falls back to the default. -/
def orDefault (o : Option String) (d : String) : String :=
  match o with
  | some v => if v = "" then d else v
  | none => d

/-- A stored row of the `entities` table. -/
structure EntityRow where
  id : String
  entity_type : String
  display_name : Option String
  external_ids : PyJson

/-- An in-memory entity dict as used by the engine: rows loaded by
`load_entities` carry `external_ids`, entities appended by the create
fallback do not. -/
structure EntityRec where
  id : String
  display_name : Option String
  external_ids : Option PyJson

/-- A stored row of the `entity_map` table. -/
structure MapRow where
  id : String
  dataset_id : String
  entity_id : String
  source_record_id : Option String
  source_keys : Option (List (String × String))
  method : String
  score : Option ℚ

/-- The JSON `detail` payload of a resolution provenance event. -/
structure ProvDetail where
  config_hash : String
  model : String
  exact : Nat
  semantic : Nat
  created : Nat
  unmatched : Nat

/-- A stored row of the `provenance_event` table. -/
structure ProvEvent where
  job_id : String
  dataset_id : String
  stage : String
  detail : ProvDetail

/-- The database state visible to the resolution engine. -/
structure DB where
  entities : List EntityRow
  entity_map : List MapRow
  provenance : List ProvEvent

/-- The per-method tallies accumulated by `run_resolution`. -/
structure Counts where
  exact : Nat
  semantic : Nat
  created : Nat
  unmatched : Nat
deriving Repr, DecidableEq

/-- Increment the tally named by `method`, modelling
`counts[method] = counts.get(method, 0) + 1`. -/
def Counts.bump (c : Counts) : String → Counts
  | "exact" => { c with exact := c.exact + 1 }
  | "semantic" => { c with semantic := c.semantic + 1 }
  | "created" => { c with created := c.created + 1 }
  | "unmatched" => { c with unmatched := c.unmatched + 1 }
  | _ => c

/-- One record of the job configuration: `{source_record_id?, keys}`. -/
structure Rec where
  source_record_id : Option String
  keys : List (String × String)

/-- The recognized fields of `config_json`.  `semanticFields`, `threshold`
and `createIfNoMatch` are `Option`-valued so that an absent (or JSON `null`)
field is distinguishable from a present one. -/
structure Config where
  records : List Rec
  joinKeys : List String
  semanticFields : Option (List String)
  threshold : Option ℚ
  createIfNoMatch : Option Bool

/-- A claimed resolution job as consumed by `run_resolution`. -/
structure Job where
  id : String
  dataset_id : String
  entity_type : String
  config : Config

/-- Effective semantic fields: `config.get("semanticFields") or ["name"]`. -/
def effSemanticFields (c : Config) : List String :=
  match c.semanticFields with
  | some l => if l = [] then ["name"] else l
  | none => ["name"]

/-- Effective threshold: `float(config.get("threshold") or 0.85)`. -/
def effThreshold (c : Config) : ℚ :=
  match c.threshold with
  | some t => if t = 0 then 0.85 else t
  | none => 0.85

/-- Effective create flag: `bool(config.get("createIfNoMatch") or False)`. -/
def effCreateIfNoMatch (c : Config) : Bool :=
  c.createIfNoMatch.getD false

/-- JSON rendering of a string (escaping is irrelevant to the development). -/
def jsonStr (s : String) : String :=
  "\"" ++ s ++ "\""

/-- Canonical (sorted-key) JSON text of a record's `keys` map. -/
def canonicalKeys (keys : List (String × String)) : String :=
  let sorted := keys.mergeSort fun a b => a.1 ≤ b.1
  "\x7b" ++ String.intercalate ", "
    (sorted.map fun p => jsonStr p.1 ++ ": " ++ jsonStr p.2) ++ "\x7d"

/-- Canonical (sorted-key) JSON text of one configuration record. -/
def canonicalRec (r : Rec) : String :=
  "\x7b" ++ String.intercalate ", "
    (("keys: " ++ canonicalKeys r.keys) ::
      (match r.source_record_id with
       | some s => ["source_record_id: " ++ jsonStr s]
       | none => [])) ++ "\x7d"

/-- Canonical JSON text of the configuration, with keys in sorted order
(createIfNoMatch, joinKeys, records, semanticFields, threshold), modelling
`json.dumps(config, sort_keys=True)`. -/
def canonicalConfig (c : Config) : String :=
  let fields : List (List String) :=
    [ (match c.createIfNoMatch with
       | some b => ["createIfNoMatch: " ++ (if b then "true" else "false")]
       | none => []),
      ["joinKeys: [" ++ String.intercalate ", " (c.joinKeys.map jsonStr) ++ "]"],
      ["records: [" ++ String.intercalate ", " (c.records.map canonicalRec) ++ "]"],
      (match c.semanticFields with
       | some l => ["semanticFields: [" ++ String.intercalate ", " (l.map jsonStr) ++ "]"]
       | none => []),
      (match c.threshold with
       | some t => ["threshold: " ++ toString t]
       | none => []) ]
  "\x7b" ++ String.intercalate ", " fields.flatten ++ "\x7d"

/-- Stable hash of config for provenance: the sha256 hex digest of the
canonical sorted-key JSON, truncated to 16 characters.  The digest function
itself is an external collaborator passed in as `sha`. -/
def config_hash (sha : String → String) (c : Config) : String :=
  (sha (canonicalConfig c)).take 16

/-- Concatenate values from `keys` for the given fields, skipping missing and
empty values (`_build_text`). -/
def build_text (keys : List (String × String)) (fields : List String) : String :=
  let parts := fields.filterMap fun f =>
    match lookup keys f with
    | some v => if v = "" then none else some v
    | none => none
  String.intercalate " " parts

/-- Defensive parse of a stored `external_ids` value: serialized text is
parsed with `loads`; text that fails to parse becomes the empty map; any
non-text value is kept as is. -/
def defensive_parse (loads : String → Option PyJson) : PyJson → PyJson
  | .jstr s =>
    match loads s with
    | some j => j
    | none => .jobj []
  | v => v

/-- Load entities of the given type with id, display_name, external_ids
(`load_entities`).  `loads` models `json.loads`. -/
def load_entities (loads : String → Option PyJson) (db : DB)
    (entity_type : String) : List EntityRec :=
  (db.entities.filter fun r => r.entity_type == entity_type).map fun r =>
    { id := r.id, display_name := r.display_name,
      external_ids := some (defensive_parse loads r.external_ids) }

/-- Load `(source_record_id, entity_id)` pairs for a dataset, skipping rows
with a null `source_record_id` (`load_existing_mappings`). -/
def load_existing_mappings (db : DB) (dataset_id : String) :
    List (String × String) :=
  (db.entity_map.filter fun r =>
      r.dataset_id == dataset_id && r.source_record_id.isSome).filterMap
    fun r => r.source_record_id.map fun s => (s, r.entity_id)

/-- Normalized values contributed by an entity's `external_ids`: the map's
truthy values, stringified, stripped and lower-cased; a non-map value
contributes nothing (`if not isinstance(ext, dict): ext = \x7b\x7d`). -/
def entity_ext_vals (ext : PyJson) : List String :=
  match ext with
  | .jobj m => (m.map Prod.snd).filterMap fun v =>
      if pyTruthy v then some (pyLower (pyStrip (pyStr v))) else none
  | _ => []

/-- Find the first entity whose `external_ids` values or `display_name`
match a join-key value of the record (`exact_match`). -/
def exact_match (record_keys : List (String × String)) (entities : List EntityRec)
    (join_keys : List String) : Option String :=
  if join_keys = [] ∨ record_keys = [] then none
  else
    let record_vals :=
      (join_keys.map fun k => pyStrip ((lookup record_keys k).getD "")).filter
        fun v => v ≠ ""
    if record_vals = [] then none
    else
      (entities.find? fun ent =>
        let dn := pyLower (pyStrip (ent.display_name.getD ""))
        let entity_vals0 := entity_ext_vals (ent.external_ids.getD .jnull)
        let entity_vals := if dn = "" then entity_vals0 else dn :: entity_vals0
        record_vals.any fun rv =>
          rv ≠ "" && entity_vals.contains (pyLower rv)).map (·.id)

/-- Dot product of two score vectors. -/
def dotQ (a b : List ℚ) : ℚ :=
  (List.zipWith (fun x y => x * y) a b).sum

/-- Index of the first maximal element (`np.argmax`), walking the scores with
the best value and its index so far. -/
def argmaxAux : List ℚ → Nat → ℚ → Nat → Nat
  | [], _, _, bi => bi
  | x :: xs, i, bv, bi =>
    if bv < x then argmaxAux xs (i + 1) x i else argmaxAux xs (i + 1) bv bi

/-- Index of the first maximal element of a list of scores. -/
def argmaxIdx : List ℚ → Nat
  | [] => 0
  | x :: xs => argmaxAux xs 1 x 0

/-- The `(entity id, candidate text)` pairs built by `semantic_match`: the
stripped display name, with `"<empty>"` standing in for a blank one. -/
def entityTexts (entities : List EntityRec) : List (String × String) :=
  entities.map fun e =>
    (e.id,
      let t := pyStrip (e.display_name.getD "")
      if t = "" then "<empty>" else t)

/-- The candidates kept by `semantic_match`: entities whose display-name
text is not the `"<empty>"` placeholder. -/
def validTexts (entities : List EntityRec) : List (String × String) :=
  (entityTexts entities).filter fun p => p.2 ≠ "<empty>"

/-- The batch of texts embedded in one call: the query string followed by
every valid candidate text. -/
def semTexts (record_text : String) (entities : List EntityRec) :
    List String :=
  record_text :: (validTexts entities).map (·.2)

/-- The similarity scores: dot product of each candidate vector with the
query vector (`np.dot(entity_vecs, query_vec.T)`). -/
def semScores (embed : List String → List (List ℚ)) (record_text : String)
    (entities : List EntityRec) : List ℚ :=
  (embed (semTexts record_text entities)).tail.map fun v =>
    dotQ v ((embed (semTexts record_text entities)).headD [])

/-- Find the best entity by cosine similarity; returns `(entity_id, score)`
or `(none, best score)` (`semantic_match`).  `embed` is the external
embedding client. -/
def semantic_match (embed : List String → List (List ℚ)) (record_text : String)
    (entities : List EntityRec) (threshold : ℚ) : Option String × ℚ :=
  if record_text = "" ∨ entities.isEmpty then (none, 0)
  else
    let valid := validTexts entities
    if valid = [] then (none, 0)
    else
      let vecs := embed (semTexts record_text entities)
      if vecs.length < 2 then (none, 0)
      else
        let scores := semScores embed record_text entities
        let best_idx := argmaxIdx scores
        let best_score := scores.getD best_idx 0
        if best_score ≥ threshold then
          (some (valid.getD best_idx ("", "")).1, best_score)
        else (none, best_score)

/-- The `NOT EXISTS` subquery of the conditional insert: does a mapping row
for `(dataset_id, source_record_id)` already exist? -/
def mapping_exists (db : DB) (dataset_id : String)
    (source_record_id : String) : Bool :=
  db.entity_map.any fun r =>
    r.dataset_id == dataset_id && r.source_record_id == some source_record_id

/-- Insert an `entity_map` row only if no mapping exists for
`(dataset_id, source_record_id)`; returns the new state and whether the
insert happened (`upsert_entity_map_insert_only`).  The fresh row id
generated by `uuid.uuid4()` is passed in as `row_id`. -/
def upsert_entity_map_insert_only (db : DB) (row_id : String)
    (dataset_id : String) (entity_id : String) (source_record_id : String)
    (source_keys : List (String × String)) (method : String)
    (score : Option ℚ) : DB × Bool :=
  if mapping_exists db dataset_id source_record_id
  then (db, false)
  else
    ({ db with entity_map := db.entity_map ++
        [{ id := row_id, dataset_id := dataset_id, entity_id := entity_id,
           source_record_id := some source_record_id,
           source_keys := if source_keys = [] then none else some source_keys,
           method := method, score := score }] }, true)

/-- Create a new entity row (`create_entity`); the fresh id is passed in as
`eid`. -/
def create_entity (db : DB) (eid : String) (entity_type : String)
    (display_name : String) (external_ids : List (String × String)) : DB :=
  { db with entities := db.entities ++
      [{ id := eid, entity_type := entity_type, display_name := some display_name,
         external_ids := PyJson.jobj
           (external_ids.map fun p => (p.1, PyJson.jstr p.2)) }] }

/-- Emit one `provenance_event` row for a resolution job (`log_provenance`). -/
def log_provenance (db : DB) (job_id : String) (dataset_id : String)
    (ch : String) (model : String) (counts : Counts) : DB :=
  { db with provenance := db.provenance ++
      [{ job_id := job_id, dataset_id := dataset_id, stage := "resolution",
         detail := { config_hash := ch, model := model, exact := counts.exact,
                     semantic := counts.semantic, created := counts.created,
                     unmatched := counts.unmatched } }] }

/-- The loop state of `run_resolution`: the in-memory candidate list, the
database, the tallies, and the counter indexing the next fresh uuid. -/
structure RunState where
  entities : List EntityRec
  db : DB
  counts : Counts
  ctr : Nat

/-- The body of the per-record loop of `run_resolution`: idempotence check,
exact match, semantic match, create fallback, unmatched tally, and the
insert-only write with its tally guard.  `fresh` enumerates the values
produced by successive `uuid.uuid4()` calls. -/
def resolve_record (embed : List String → List (List ℚ)) (fresh : Nat → String)
    (dataset_id : String) (entity_type : String) (join_keys : List String)
    (semantic_fields : List String) (threshold : ℚ) (create_if_no_match : Bool)
    (existing : List String) (st : RunState) (rec : Rec) : RunState :=
  let sidCtr : String × Nat :=
    match rec.source_record_id with
    | some s => if s = "" then (fresh st.ctr, st.ctr + 1) else (s, st.ctr)
    | none => (fresh st.ctr, st.ctr + 1)
  let source_record_id := sidCtr.1
  let ctr1 := sidCtr.2
  let keys := rec.keys
  if source_record_id ∈ existing then
    { st with ctr := ctr1 }
  else
    let exactRes : Option String :=
      if join_keys = [] then none else exact_match keys st.entities join_keys
    let matched : Option (String × String × Option ℚ) :=
      match exactRes with
      | some e => some (e, "exact", some 1)
      | none =>
        let text := build_text keys semantic_fields
        if text = "" then none
        else
          match semantic_match embed text st.entities threshold with
          | (some e, sim) => some (e, "semantic", some sim)
          | (none, _) => none
    match matched with
    | some (e, meth, sc) =>
      let res := upsert_entity_map_insert_only st.db (fresh ctr1) dataset_id e
        source_record_id keys meth sc
      { st with db := res.1,
                counts := if res.2 then st.counts.bump meth else st.counts,
                ctr := ctr1 + 1 }
    | none =>
      if create_if_no_match then
        let display_name :=
          orDefault (lookup keys "name")
            (orDefault (lookup keys "display_name") source_record_id)
        let eid := fresh ctr1
        let db1 := create_entity st.db eid entity_type display_name keys
        let entities1 := st.entities ++
          [{ id := eid, display_name := some display_name, external_ids := none }]
        let res := upsert_entity_map_insert_only db1 (fresh (ctr1 + 1)) dataset_id
          eid source_record_id keys "created" (some 1)
        { entities := entities1, db := res.1,
          counts := if res.2 then st.counts.bump "created" else st.counts,
          ctr := ctr1 + 2 }
      else
        { st with counts := st.counts.bump "unmatched", ctr := ctr1 }

/-- Run resolution for one job (`run_resolution`), returning the final
database state together with the result summary.  `embed`, `sha`, `loads`,
`fresh` and `model_name` model the external collaborators; `ctr0` indexes the
first fresh uuid of this run. -/
def run_resolution (embed : List String → List (List ℚ)) (sha : String → String)
    (loads : String → Option PyJson) (fresh : Nat → String) (ctr0 : Nat)
    (model_name : String) (db : DB) (job : Job) : DB × Counts :=
  let config := job.config
  let records := config.records
  let join_keys := config.joinKeys
  let semantic_fields := effSemanticFields config
  let threshold := effThreshold config
  let create_if_no_match := effCreateIfNoMatch config
  if records.isEmpty then
    (db, { exact := 0, semantic := 0, created := 0, unmatched := 0 })
  else
    let entities := load_entities loads db job.entity_type
    let existing := load_existing_mappings db job.dataset_id
    let st := records.foldl
      (resolve_record embed fresh job.dataset_id job.entity_type join_keys
        semantic_fields threshold create_if_no_match (existing.map Prod.fst))
      { entities := entities, db := db,
        counts := { exact := 0, semantic := 0, created := 0, unmatched := 0 },
        ctr := ctr0 }
    let ch := config_hash sha config
    let db2 := log_provenance st.db job.id job.dataset_id ch model_name st.counts
    (db2, st.counts)

/-- Trim and case-fold, the normalization prescribed by the specification. -/
def specNorm (s : String) : String :=
  pyLower (pyStrip s)

/-- Exact matching as the specification words it: normalize the configured
join-key values from the record into a value set `V`; build each candidate
entity's normalized value set from its `display_name` plus all values of
`external_ids`; return the first entity in iteration order whose value set
intersects `V`. -/
def exactMatchSpec (record_keys : List (String × String))
    (entities : List EntityRec) (join_keys : List String) : Option String :=
  let V := join_keys.filterMap fun k => (lookup record_keys k).map specNorm
  (entities.find? fun ent =>
    let vals := specNorm (ent.display_name.getD "") ::
      (match ent.external_ids.getD .jnull with
       | .jobj m => m.map fun q => specNorm (pyStr q.2)
       | _ => [])
    V.any fun rv => vals.contains rv).map (·.id)

/-- String-valued external identifiers, as in the data model. -/
def WellFormedExt (ent : EntityRec) : Prop :=
  ent.external_ids = none ∨
    ∃ m, ent.external_ids = some (.jobj m) ∧ ∀ q ∈ m, ∃ str, q.2 = .jstr str

/-! ### Helper lemmas -/

lemma mapping_exists_iff (db : DB) (d s : String) :
    mapping_exists db d s = true ↔
      ∃ r ∈ db.entity_map, r.dataset_id = d ∧ r.source_record_id = some s := by
  simp [mapping_exists, List.any_eq_true, Bool.and_eq_true, beq_iff_eq]

lemma mapping_exists_append (db : DB) (rows : List MapRow) (d s : String) :
    mapping_exists { db with entity_map := db.entity_map ++ rows } d s =
      (mapping_exists db d s ||
        rows.any fun r => r.dataset_id == d && r.source_record_id == some s) := by
  simp [mapping_exists, List.any_append]

/-! ### C1: the insert-only mapping write -/

/-- C1: `upsert_entity_map_insert_only` inserts a new `entity_map` row only
when no row exists for `(dataset_id, source_record_id)`, returns `true`
exactly when the insert happened, a second attempt to map the same pair
inserts nothing and is a silent no-op, and the write preserves the
at-most-one-row-per-pair invariant. -/
theorem upsert_entity_map_insert_only_spec (db : DB) (rid rid2 : String)
    (d e e2 s : String) (ks ks2 : List (String × String)) (m m2 : String)
    (sc sc2 : Option ℚ) :
    ((upsert_entity_map_insert_only db rid d e s ks m sc).2 = true ↔
        ¬ ∃ r ∈ db.entity_map, r.dataset_id = d ∧ r.source_record_id = some s)
    ∧ ((upsert_entity_map_insert_only db rid d e s ks m sc).2 = true →
        (upsert_entity_map_insert_only db rid d e s ks m sc).1.entity_map =
          db.entity_map ++
            [{ id := rid, dataset_id := d, entity_id := e,
               source_record_id := some s,
               source_keys := if ks = [] then none else some ks,
               method := m, score := sc }])
    ∧ ((upsert_entity_map_insert_only db rid d e s ks m sc).2 = false →
        (upsert_entity_map_insert_only db rid d e s ks m sc).1 = db)
    ∧ (upsert_entity_map_insert_only
        (upsert_entity_map_insert_only db rid d e s ks m sc).1
        rid2 d e2 s ks2 m2 sc2).2 = false
    ∧ (upsert_entity_map_insert_only
        (upsert_entity_map_insert_only db rid d e s ks m sc).1
        rid2 d e2 s ks2 m2 sc2).1 =
      (upsert_entity_map_insert_only db rid d e s ks m sc).1
    ∧ (∀ d' s',
        ((db.entity_map.filter fun r =>
            r.dataset_id == d' && r.source_record_id == some s').length ≤ 1) →
        (((upsert_entity_map_insert_only db rid d e s ks m sc).1.entity_map.filter
            fun r =>
              r.dataset_id == d' && r.source_record_id == some s').length ≤ 1)) := by
  by_cases hex : mapping_exists db d s = true
  · have h2 : upsert_entity_map_insert_only db rid d e s ks m sc = (db, false) := by
      simp [upsert_entity_map_insert_only, hex]
    refine ⟨?_, ?_, ?_, ?_, ?_, ?_⟩
    · rw [h2]
      refine ⟨fun hfalse => absurd hfalse (by simp), fun hn => ?_⟩
      exact absurd ((mapping_exists_iff db d s).mp hex) hn
    · rw [h2]; intro h; exact absurd h (by simp)
    · rw [h2]; intro h; rfl
    · rw [h2]; simp [upsert_entity_map_insert_only, hex]
    · rw [h2]; simp [upsert_entity_map_insert_only, hex]
    · rw [h2]; intro d' s' h; exact h
  · have hno : mapping_exists db d s = false := by
      revert hex; cases mapping_exists db d s <;> simp
    have h2 : upsert_entity_map_insert_only db rid d e s ks m sc =
        ({ db with entity_map := db.entity_map ++
            [{ id := rid, dataset_id := d, entity_id := e,
               source_record_id := some s,
               source_keys := if ks = [] then none else some ks,
               method := m, score := sc }] }, true) := by
      simp [upsert_entity_map_insert_only, hno]
    have hex2 : mapping_exists
        ({ db with entity_map := db.entity_map ++
            [{ id := rid, dataset_id := d, entity_id := e,
               source_record_id := some s,
               source_keys := if ks = [] then none else some ks,
               method := m, score := sc }] } : DB) d s = true := by
      rw [mapping_exists_append]
      simp
    refine ⟨?_, ?_, ?_, ?_, ?_, ?_⟩
    · rw [h2]
      refine ⟨fun _ hco => ?_, fun _ => rfl⟩
      have := (mapping_exists_iff db d s).mpr hco
      simp_all
    · rw [h2]; intro h; rfl
    · rw [h2]; intro h; exact absurd h (by simp)
    · rw [h2]; simp [upsert_entity_map_insert_only, hex2]
    · rw [h2]; simp [upsert_entity_map_insert_only, hex2]
    · rw [h2]
      intro d' s' h
      simp only [List.filter_append, List.length_append]
      by_cases hmatch : (d = d' ∧ s = s')
      · obtain ⟨rfl, rfl⟩ := hmatch
        have hfe : (db.entity_map.filter fun r =>
            r.dataset_id == d && r.source_record_id == some s) = [] := by
          rw [List.filter_eq_nil_iff]
          intro r hr
          intro hc
          have : mapping_exists db d s = true := by
            rw [mapping_exists_iff]
            refine ⟨r, hr, ?_⟩
            simpa [Bool.and_eq_true, beq_iff_eq] using hc
          simp_all
        rw [hfe]
        simp
      · have hrow : (([⟨rid, d, e, some s,
              (if ks = [] then none else some ks), m, sc⟩] : List MapRow).filter
              fun r =>
              r.dataset_id == d' && r.source_record_id == some s') = [] := by
          rw [List.filter_eq_nil_iff]
          intro r hr
          simp only [List.mem_singleton] at hr
          subst hr
          simp only [Bool.and_eq_true, beq_iff_eq, Option.some.injEq, not_and]
          intro hd hs
          exact hmatch ⟨hd, hs⟩
        rw [hrow]
        simpa using h

/-- Witness for C1 at a concrete database and insert. -/
theorem upsert_entity_map_insert_only_spec_witness :
    (upsert_entity_map_insert_only ⟨[], [], []⟩ "u1" "d" "e" "r" [] "exact"
        (some 1)).1.entity_map =
      ([] : List MapRow) ++
        [⟨"u1", "d", "e", some "r",
          (if ([] : List (String × String)) = [] then none else some []),
          "exact", some 1⟩] :=
  (upsert_entity_map_insert_only_spec ⟨[], [], []⟩ "u1" "u2" "d" "e" "e" "r"
    [] [] "exact" "exact" (some 1) (some 1)).2.1 (by rfl)

/-! ### C2: idempotence via the existing-mapping skip -/

lemma resolve_record_skip (embed : List String → List (List ℚ))
    (fresh : Nat → String) (d et : String) (jk sf : List String) (thr : ℚ)
    (cinm : Bool) (existing : List String) (st : RunState) (rec : Rec)
    (s : String) (hs : rec.source_record_id = some s) (hne : s ≠ "")
    (hmem : s ∈ existing) :
    resolve_record embed fresh d et jk sf thr cinm existing st rec = st := by
  unfold resolve_record
  rw [hs]
  simp only [hne, if_false, reduceIte]
  rw [if_pos hmem]

lemma foldl_fixed {α β : Type} (f : α → β → α) :
    ∀ (l : List β) (init : α), (∀ b ∈ l, ∀ a, f a b = a) →
      l.foldl f init = init := by
  intro l
  induction l with
  | nil => intro init _; rfl
  | cons b bs ih =>
    intro init h
    rw [List.foldl_cons, h b (List.mem_cons_self b bs)]
    exact ih init fun b' hb' a => h b' (List.mem_cons_of_mem b hb') a

/-- C2: a record whose `source_record_id` already has a mapping for the
job's dataset is skipped entirely by `run_resolution`: the per-record step
leaves the whole loop state unchanged, and a run in which every record is
already mapped adds no mapping rows, creates no entities and reports
all-zero tallies. -/
theorem run_resolution_skips_already_mapped :
    (∀ (embed : List String → List (List ℚ)) (fresh : Nat → String)
        (d et : String) (jk sf : List String) (thr : ℚ) (cinm : Bool)
        (existing : List String) (st : RunState) (rec : Rec) (s : String),
      rec.source_record_id = some s → s ≠ "" → s ∈ existing →
      resolve_record embed fresh d et jk sf thr cinm existing st rec = st)
    ∧ (∀ (embed : List String → List (List ℚ)) (sha : String → String)
        (loads : String → Option PyJson) (fresh : Nat → String) (ctr0 : Nat)
        (model : String) (db : DB) (job : Job),
      (∀ rec ∈ job.config.records, ∃ s, rec.source_record_id = some s ∧
        s ≠ "" ∧ s ∈ (load_existing_mappings db job.dataset_id).map Prod.fst) →
      (run_resolution embed sha loads fresh ctr0 model db job).1.entity_map =
          db.entity_map
        ∧ (run_resolution embed sha loads fresh ctr0 model db job).1.entities =
          db.entities
        ∧ (run_resolution embed sha loads fresh ctr0 model db job).2 =
          ⟨0, 0, 0, 0⟩) := by
  refine ⟨fun embed fresh d et jk sf thr cinm existing st rec s hs hne hmem =>
    resolve_record_skip embed fresh d et jk sf thr cinm existing st rec s
      hs hne hmem, ?_⟩
  intro embed sha loads fresh ctr0 model db job hall
  unfold run_resolution
  by_cases hrec : job.config.records.isEmpty
  · simp only [hrec, if_true, reduceIte]
    exact ⟨trivial, trivial, trivial⟩
  · simp only [hrec, Bool.false_eq_true, if_false, reduceIte]
    have hfold : job.config.records.foldl
        (resolve_record embed fresh job.dataset_id job.entity_type
          job.config.joinKeys (effSemanticFields job.config)
          (effThreshold job.config) (effCreateIfNoMatch job.config)
          ((load_existing_mappings db job.dataset_id).map Prod.fst))
        ⟨load_entities loads db job.entity_type, db, ⟨0, 0, 0, 0⟩, ctr0⟩ =
        ⟨load_entities loads db job.entity_type, db, ⟨0, 0, 0, 0⟩, ctr0⟩ := by
      apply foldl_fixed
      intro rec hrecmem st
      obtain ⟨s, hs, hne, hmem⟩ := hall rec hrecmem
      exact resolve_record_skip _ _ _ _ _ _ _ _ _ _ _ _ hs hne hmem
    rw [hfold]
    exact ⟨rfl, rfl, rfl⟩

/-- Witness for C2: a second run of a one-record job whose record is already
mapped changes no mapping rows and tallies zero. -/
theorem run_resolution_skips_already_mapped_witness :
    (run_resolution (fun ts => ts.map fun _ => [1]) (fun _ => "h")
        (fun _ => none) (fun n => toString n) 0 "m"
        ⟨[⟨"e1", "person", some "Ada Lovelace", .jobj []⟩],
         [⟨"u1", "d", "e1", some "r1", none, "exact", some 1⟩], []⟩
        ⟨"j", "d", "person",
          ⟨[⟨some "r1", [("name", "ada lovelace")]⟩], ["name"], none, none,
            none⟩⟩).1.entity_map =
      [⟨"u1", "d", "e1", some "r1", none, "exact", some 1⟩] :=
  (run_resolution_skips_already_mapped.2 (fun ts => ts.map fun _ => [1])
    (fun _ => "h") (fun _ => none) (fun n => toString n) 0 "m"
    ⟨[⟨"e1", "person", some "Ada Lovelace", .jobj []⟩],
     [⟨"u1", "d", "e1", some "r1", none, "exact", some 1⟩], []⟩
    ⟨"j", "d", "person",
      ⟨[⟨some "r1", [("name", "ada lovelace")]⟩], ["name"], none, none, none⟩⟩
    (by
      intro rec hrec
      simp only [List.mem_singleton] at hrec
      subst hrec
      exact ⟨"r1", rfl, by decide, by decide⟩)).1

/-! ### Branch characterizations of the per-record step -/

lemma upsert_of_no_mapping (db : DB) (rid d e s : String)
    (ks : List (String × String)) (m : String) (sc : Option ℚ)
    (h : mapping_exists db d s = false) :
    upsert_entity_map_insert_only db rid d e s ks m sc =
      ({ db with entity_map := db.entity_map ++
          [⟨rid, d, e, some s, (if ks = [] then none else some ks), m, sc⟩] },
        true) := by
  simp [upsert_entity_map_insert_only, h]

lemma upsert_of_mapping (db : DB) (rid d e s : String)
    (ks : List (String × String)) (m : String) (sc : Option ℚ)
    (h : mapping_exists db d s = true) :
    upsert_entity_map_insert_only db rid d e s ks m sc = (db, false) := by
  simp [upsert_entity_map_insert_only, h]

lemma resolve_record_exact_branch (embed : List String → List (List ℚ))
    (fresh : Nat → String) (d et : String) (jk sf : List String) (thr : ℚ)
    (cinm : Bool) (existing : List String) (st : RunState) (rec : Rec)
    (s e : String) (hs : rec.source_record_id = some s) (hne : s ≠ "")
    (hnot : s ∉ existing) (hjk : jk ≠ [])
    (hx : exact_match rec.keys st.entities jk = some e) :
    resolve_record embed fresh d et jk sf thr cinm existing st rec =
      { st with
        db := (upsert_entity_map_insert_only st.db (fresh st.ctr) d e s
          rec.keys "exact" (some 1)).1,
        counts := if (upsert_entity_map_insert_only st.db (fresh st.ctr) d e s
            rec.keys "exact" (some 1)).2 then st.counts.bump "exact"
          else st.counts,
        ctr := st.ctr + 1 } := by
  unfold resolve_record
  rw [hs]
  simp only [hne, reduceIte, if_neg hnot, if_neg hjk, hx]

lemma resolve_record_semantic_branch (embed : List String → List (List ℚ))
    (fresh : Nat → String) (d et : String) (jk sf : List String) (thr : ℚ)
    (cinm : Bool) (existing : List String) (st : RunState) (rec : Rec)
    (s e : String) (sim : ℚ) (hs : rec.source_record_id = some s)
    (hne : s ≠ "") (hnot : s ∉ existing)
    (hnx : jk = [] ∨ exact_match rec.keys st.entities jk = none)
    (htext : build_text rec.keys sf ≠ "")
    (hsm : semantic_match embed (build_text rec.keys sf) st.entities thr =
      (some e, sim)) :
    resolve_record embed fresh d et jk sf thr cinm existing st rec =
      { st with
        db := (upsert_entity_map_insert_only st.db (fresh st.ctr) d e s
          rec.keys "semantic" (some sim)).1,
        counts := if (upsert_entity_map_insert_only st.db (fresh st.ctr) d e s
            rec.keys "semantic" (some sim)).2 then st.counts.bump "semantic"
          else st.counts,
        ctr := st.ctr + 1 } := by
  unfold resolve_record
  rw [hs]
  rcases hnx with hjk | hx
  · simp only [hne, reduceIte, if_neg hnot, hjk, if_pos rfl, htext, hsm]
  · by_cases hjk : jk = []
    · simp only [hne, reduceIte, if_neg hnot, hjk, if_pos rfl, htext, hsm]
    · simp only [hne, reduceIte, if_neg hnot, if_neg hjk, hx, htext, hsm]

lemma resolve_record_unmatched_branch (embed : List String → List (List ℚ))
    (fresh : Nat → String) (d et : String) (jk sf : List String) (thr : ℚ)
    (existing : List String) (st : RunState) (rec : Rec) (s : String)
    (hs : rec.source_record_id = some s) (hne : s ≠ "") (hnot : s ∉ existing)
    (hnx : jk = [] ∨ exact_match rec.keys st.entities jk = none)
    (hnosem : build_text rec.keys sf = "" ∨
      (semantic_match embed (build_text rec.keys sf) st.entities thr).1 =
        none) :
    resolve_record embed fresh d et jk sf thr false existing st rec =
      { st with counts := st.counts.bump "unmatched" } := by
  unfold resolve_record
  rw [hs]
  rcases hnx with hjk | hx
  · rcases hnosem with ht | hsm
    · simp only [hne, reduceIte, if_neg hnot, hjk, if_pos rfl, ht]
      rfl
    · rcases hsmeq : semantic_match embed (build_text rec.keys sf)
        st.entities thr with ⟨o, b⟩
      rw [hsmeq] at hsm
      simp only at hsm
      subst hsm
      by_cases ht : build_text rec.keys sf = ""
      · simp only [hne, reduceIte, if_neg hnot, hjk, if_pos rfl, ht]
        rfl
      · simp only [hne, reduceIte, if_neg hnot, hjk, if_pos rfl, ht, hsmeq]
        rfl
  · by_cases hjk : jk = []
    · rcases hnosem with ht | hsm
      · simp only [hne, reduceIte, if_neg hnot, hjk, if_pos rfl, ht]
        rfl
      · rcases hsmeq : semantic_match embed (build_text rec.keys sf)
          st.entities thr with ⟨o, b⟩
        rw [hsmeq] at hsm
        simp only at hsm
        subst hsm
        by_cases ht : build_text rec.keys sf = ""
        · simp only [hne, reduceIte, if_neg hnot, hjk, if_pos rfl, ht]
          rfl
        · simp only [hne, reduceIte, if_neg hnot, hjk, if_pos rfl, ht, hsmeq]
          rfl
    · rcases hnosem with ht | hsm
      · simp only [hne, reduceIte, if_neg hnot, if_neg hjk, hx, ht]
        rfl
      · rcases hsmeq : semantic_match embed (build_text rec.keys sf)
          st.entities thr with ⟨o, b⟩
        rw [hsmeq] at hsm
        simp only at hsm
        subst hsm
        by_cases ht : build_text rec.keys sf = ""
        · simp only [hne, reduceIte, if_neg hnot, if_neg hjk, hx, ht]
          rfl
        · simp only [hne, reduceIte, if_neg hnot, if_neg hjk, hx, ht, hsmeq]
          rfl

/-! ### C3: tier order, first success wins, insert-gated tallies -/

/-- C3: for a record that passes the idempotence check, the tiers apply in
order with first success winning.  When exact match fires the step does not
depend on the embedding client at all (semantic matching is not run) and no
entity is created; when semantic match fires no entity is created; a record
with empty semantic text, no exact match and creation disabled is tallied
unmatched with no mapping written; and in both match tiers the method's
tally is incremented exactly when the conditional insert occurred. -/
theorem resolve_record_tier_order (embed embed' : List String → List (List ℚ))
    (fresh : Nat → String) (d et : String) (jk sf : List String) (thr : ℚ)
    (cinm : Bool) (existing : List String) (st : RunState) (rec : Rec)
    (s : String) (hs : rec.source_record_id = some s) (hne : s ≠ "")
    (hnot : s ∉ existing) :
    (∀ e, jk ≠ [] → exact_match rec.keys st.entities jk = some e →
      resolve_record embed fresh d et jk sf thr cinm existing st rec =
          resolve_record embed' fresh d et jk sf thr cinm existing st rec
        ∧ (resolve_record embed fresh d et jk sf thr cinm existing st
            rec).entities = st.entities
        ∧ (resolve_record embed fresh d et jk sf thr cinm existing st
            rec).db.entities = st.db.entities
        ∧ (mapping_exists st.db d s = false →
            (resolve_record embed fresh d et jk sf thr cinm existing st
              rec).db.entity_map = st.db.entity_map ++
                [⟨fresh st.ctr, d, e, some s,
                  (if rec.keys = [] then none else some rec.keys), "exact",
                  some 1⟩]
            ∧ (resolve_record embed fresh d et jk sf thr cinm existing st
                rec).counts = st.counts.bump "exact")
        ∧ (mapping_exists st.db d s = true →
            (resolve_record embed fresh d et jk sf thr cinm existing st
              rec).db = st.db
            ∧ (resolve_record embed fresh d et jk sf thr cinm existing st
                rec).counts = st.counts))
    ∧ (∀ e sim, (jk = [] ∨ exact_match rec.keys st.entities jk = none) →
        build_text rec.keys sf ≠ "" →
        semantic_match embed (build_text rec.keys sf) st.entities thr =
          (some e, sim) →
        (resolve_record embed fresh d et jk sf thr cinm existing st
            rec).entities = st.entities
        ∧ (resolve_record embed fresh d et jk sf thr cinm existing st
            rec).db.entities = st.db.entities
        ∧ (mapping_exists st.db d s = false →
            (resolve_record embed fresh d et jk sf thr cinm existing st
              rec).db.entity_map = st.db.entity_map ++
                [⟨fresh st.ctr, d, e, some s,
                  (if rec.keys = [] then none else some rec.keys), "semantic",
                  some sim⟩]
            ∧ (resolve_record embed fresh d et jk sf thr cinm existing st
                rec).counts = st.counts.bump "semantic")
        ∧ (mapping_exists st.db d s = true →
            (resolve_record embed fresh d et jk sf thr cinm existing st
              rec).db = st.db
            ∧ (resolve_record embed fresh d et jk sf thr cinm existing st
                rec).counts = st.counts))
    ∧ ((jk = [] ∨ exact_match rec.keys st.entities jk = none) →
        (build_text rec.keys sf = "" ∨
          (semantic_match embed (build_text rec.keys sf) st.entities
            thr).1 = none) →
        cinm = false →
        resolve_record embed fresh d et jk sf thr cinm existing st rec =
          { st with counts := st.counts.bump "unmatched" }) := by
  refine ⟨?_, ?_, ?_⟩
  · intro e hjk hx
    have heq := resolve_record_exact_branch embed fresh d et jk sf thr cinm
      existing st rec s e hs hne hnot hjk hx
    have heq' := resolve_record_exact_branch embed' fresh d et jk sf thr cinm
      existing st rec s e hs hne hnot hjk hx
    refine ⟨heq.trans heq'.symm, ?_, ?_, ?_, ?_⟩
    · rw [heq]
    · rw [heq]
      by_cases hm : mapping_exists st.db d s = true
      · rw [upsert_of_mapping st.db (fresh st.ctr) d e s rec.keys "exact"
          (some 1) hm]
      · have hm' : mapping_exists st.db d s = false := by
          revert hm; cases mapping_exists st.db d s <;> simp
        rw [upsert_of_no_mapping st.db (fresh st.ctr) d e s rec.keys "exact"
          (some 1) hm']
    · intro hm
      rw [heq, upsert_of_no_mapping st.db (fresh st.ctr) d e s rec.keys
        "exact" (some 1) hm]
      exact ⟨rfl, rfl⟩
    · intro hm
      rw [heq, upsert_of_mapping st.db (fresh st.ctr) d e s rec.keys "exact"
        (some 1) hm]
      exact ⟨rfl, rfl⟩
  · intro e sim hnx htext hsm
    have heq := resolve_record_semantic_branch embed fresh d et jk sf thr cinm
      existing st rec s e sim hs hne hnot hnx htext hsm
    refine ⟨?_, ?_, ?_, ?_⟩
    · rw [heq]
    · rw [heq]
      by_cases hm : mapping_exists st.db d s = true
      · rw [upsert_of_mapping st.db (fresh st.ctr) d e s rec.keys "semantic"
          (some sim) hm]
      · have hm' : mapping_exists st.db d s = false := by
          revert hm; cases mapping_exists st.db d s <;> simp
        rw [upsert_of_no_mapping st.db (fresh st.ctr) d e s rec.keys
          "semantic" (some sim) hm']
    · intro hm
      rw [heq, upsert_of_no_mapping st.db (fresh st.ctr) d e s rec.keys
        "semantic" (some sim) hm]
      exact ⟨rfl, rfl⟩
    · intro hm
      rw [heq, upsert_of_mapping st.db (fresh st.ctr) d e s rec.keys
        "semantic" (some sim) hm]
      exact ⟨rfl, rfl⟩
  · intro hnx hnosem hcf
    subst hcf
    exact resolve_record_unmatched_branch embed fresh d et jk sf thr existing
      st rec s hs hne hnot hnx hnosem

/-- Witness for C3 at a concrete record: exact match fires on the Ada
entity, the insert occurs, and the exact tally is incremented. -/
theorem resolve_record_tier_order_witness :
    (resolve_record (fun ts => ts.map fun _ => [1]) (fun n => toString n) "d"
        "person" ["name"] ["name"] 0.85 false []
        ⟨[⟨"e1", some "Ada Lovelace", some (.jobj [])⟩], ⟨[], [], []⟩,
          ⟨0, 0, 0, 0⟩, 0⟩
        ⟨some "r1", [("name", "ada lovelace")]⟩).db.entity_map =
      ([] : List MapRow) ++
        [⟨"0", "d", "e1", some "r1",
          (if [("name", "ada lovelace")] = ([] : List (String × String))
            then none else some [("name", "ada lovelace")]), "exact",
          some 1⟩]
    ∧ (resolve_record (fun ts => ts.map fun _ => [1]) (fun n => toString n)
        "d" "person" ["name"] ["name"] 0.85 false []
        ⟨[⟨"e1", some "Ada Lovelace", some (.jobj [])⟩], ⟨[], [], []⟩,
          ⟨0, 0, 0, 0⟩, 0⟩
        ⟨some "r1", [("name", "ada lovelace")]⟩).counts =
      Counts.bump ⟨0, 0, 0, 0⟩ "exact" :=
  ((resolve_record_tier_order (fun ts => ts.map fun _ => [1])
      (fun ts => ts.map fun _ => [2]) (fun n => toString n) "d" "person"
      ["name"] ["name"] 0.85 false []
      ⟨[⟨"e1", some "Ada Lovelace", some (.jobj [])⟩], ⟨[], [], []⟩,
        ⟨0, 0, 0, 0⟩, 0⟩
      ⟨some "r1", [("name", "ada lovelace")]⟩ "r1" rfl (by decide)
      (by decide)).1 "e1" (by decide) (by decide)).2.2.2.1 rfl

/-! ### C4: exact matching refines its specification -/


lemma find?_congr {α : Type} (l : List α) (p q : α → Bool)
    (h : ∀ a ∈ l, p a = q a) : l.find? p = l.find? q := by
  induction l with
  | nil => rfl
  | cons a as ih =>
    cases hqa : q a
    · rw [List.find?_cons_of_neg _ (by simp [h a (List.mem_cons_self a as), hqa]),
        List.find?_cons_of_neg _ (by simp [hqa])]
      exact ih fun a' ha' => h a' (List.mem_cons_of_mem a ha')
    · rw [List.find?_cons_of_pos _ (by simp [h a (List.mem_cons_self a as), hqa]),
        List.find?_cons_of_pos _ (by simp [hqa])]

lemma mem_entity_vals_iff (ent : EntityRec) (p : String) (hp : p ≠ "")
    (hext : WellFormedExt ent) :
    (p ∈ (if pyLower (pyStrip (ent.display_name.getD "")) = ""
          then entity_ext_vals (ent.external_ids.getD .jnull)
          else pyLower (pyStrip (ent.display_name.getD "")) ::
            entity_ext_vals (ent.external_ids.getD .jnull))) ↔
    (p ∈ pyLower (pyStrip (ent.display_name.getD "")) ::
        (match ent.external_ids.getD .jnull with
         | .jobj m => m.map fun q => pyLower (pyStrip (pyStr q.2))
         | _ => [])) := by
  rcases hext with hnone | ⟨m, hm, hstr⟩
  · rw [hnone]
    by_cases hdn : pyLower (pyStrip (ent.display_name.getD "")) = ""
    · rw [if_pos hdn]
      constructor
      · intro h
        simp [entity_ext_vals] at h
      · intro h
        rcases List.mem_cons.mp h with hh | hh
        · exact absurd (hh.trans hdn) hp
        · simp at hh
    · rw [if_neg hdn]
      constructor
      · intro h
        rcases List.mem_cons.mp h with hh | hh
        · exact List.mem_cons.mpr (Or.inl hh)
        · simp [entity_ext_vals] at hh
      · intro h
        rcases List.mem_cons.mp h with hh | hh
        · exact List.mem_cons.mpr (Or.inl hh)
        · simp at hh
  · rw [hm]
    have hsub : ∀ x ∈ entity_ext_vals (.jobj m),
        x ∈ m.map fun q => pyLower (pyStrip (pyStr q.2)) := by
      intro x hx
      simp only [entity_ext_vals, List.mem_filterMap, List.mem_map] at hx
      obtain ⟨v, ⟨q, hq, hqv⟩, hcond⟩ := hx
      rcases hif : pyTruthy v with _ | _
      · rw [hif] at hcond; simp at hcond
      · rw [hif] at hcond
        simp only [if_pos] at hcond
        rw [List.mem_map]
        exact ⟨q, hq, by rw [hqv]; simpa using hcond⟩
    have hsup : ∀ x ∈ (m.map fun q => pyLower (pyStrip (pyStr q.2))),
        x ≠ "" → x ∈ entity_ext_vals (.jobj m) := by
      intro x hx hxne
      rw [List.mem_map] at hx
      obtain ⟨q, hq, hqx⟩ := hx
      obtain ⟨str, hqs⟩ := hstr q hq
      by_cases hse : str = ""
      · exfalso
        apply hxne
        rw [← hqx, hqs, hse]
        rfl
      · simp only [entity_ext_vals, List.mem_filterMap, List.mem_map]
        refine ⟨q.2, ⟨q, hq, rfl⟩, ?_⟩
        rw [hqs]
        have ht : pyTruthy (.jstr str) = true := by
          simp [pyTruthy, hse]
        rw [ht]
        simp only [if_pos]
        rw [← hqx, hqs]
    by_cases hdn : pyLower (pyStrip (ent.display_name.getD "")) = ""
    · rw [if_pos hdn]
      constructor
      · intro h
        exact List.mem_cons.mpr (Or.inr (by simpa using hsub p (by simpa using h)))
      · intro h
        rcases List.mem_cons.mp h with hh | hh
        · exact absurd (hh.trans hdn) hp
        · simpa using hsup p (by simpa using hh) hp
    · rw [if_neg hdn]
      constructor
      · intro h
        rcases List.mem_cons.mp h with hh | hh
        · exact List.mem_cons.mpr (Or.inl hh)
        · exact List.mem_cons.mpr (Or.inr (by simpa using hsub p (by simpa using hh)))
      · intro h
        rcases List.mem_cons.mp h with hh | hh
        · exact List.mem_cons.mpr (Or.inl hh)
        · exact List.mem_cons.mpr (Or.inr (by simpa using hsup p (by simpa using hh) hp))

lemma exact_pred_agrees (ks : List (String × String)) (jk : List String)
    (hjv : ∀ k v, lookup ks k = some v → pyLower (pyStrip v) ≠ "")
    (ent : EntityRec) (hext : WellFormedExt ent) :
    (((jk.map fun k => pyStrip ((lookup ks k).getD "")).filter
        fun v => v ≠ "").any
        fun rv => rv ≠ "" &&
          ((if pyLower (pyStrip (ent.display_name.getD "")) = ""
            then entity_ext_vals (ent.external_ids.getD .jnull)
            else pyLower (pyStrip (ent.display_name.getD "")) ::
              entity_ext_vals (ent.external_ids.getD .jnull)).contains
            (pyLower rv)))
    = ((jk.filterMap fun k => (lookup ks k).map specNorm).any
        fun rv =>
          (specNorm (ent.display_name.getD "") ::
            (match ent.external_ids.getD .jnull with
             | .jobj m => m.map fun q => specNorm (pyStr q.2)
             | _ => [])).contains rv) := by
  rw [Bool.eq_iff_iff]
  constructor
  · intro h
    rw [List.any_eq_true] at h
    obtain ⟨rv, hrv, hcond⟩ := h
    rw [List.mem_filter] at hrv
    obtain ⟨hrvmap, hrvne⟩ := hrv
    rw [List.mem_map] at hrvmap
    obtain ⟨k, hk, hkrv⟩ := hrvmap
    rw [Bool.and_eq_true] at hcond
    obtain ⟨_, hcont⟩ := hcond
    cases hlk : lookup ks k with
    | none =>
      exfalso
      rw [hlk] at hkrv
      simp only [Option.getD_none] at hkrv
      have hre : rv = "" := by rw [← hkrv]; rfl
      rw [hre] at hrvne
      simp at hrvne
    | some v =>
      have hvne := hjv k v hlk
      rw [hlk] at hkrv
      simp only [Option.getD_some] at hkrv
      subst hkrv
      have hmem : pyLower (pyStrip v) ∈
          (if pyLower (pyStrip (ent.display_name.getD "")) = ""
           then entity_ext_vals (ent.external_ids.getD .jnull)
           else pyLower (pyStrip (ent.display_name.getD "")) ::
             entity_ext_vals (ent.external_ids.getD .jnull)) := by
        simpa using hcont
      have hspec := (mem_entity_vals_iff ent (pyLower (pyStrip v)) hvne
        hext).mp hmem
      rw [List.any_eq_true]
      refine ⟨specNorm v, ?_, ?_⟩
      · rw [List.mem_filterMap]
        exact ⟨k, hk, by rw [hlk]; rfl⟩
      · simpa [specNorm] using hspec
  · intro h
    rw [List.any_eq_true] at h
    obtain ⟨x, hxmem, hxcont⟩ := h
    rw [List.mem_filterMap] at hxmem
    obtain ⟨k, hk, hkx⟩ := hxmem
    cases hlk : lookup ks k with
    | none => rw [hlk] at hkx; simp at hkx
    | some v =>
      rw [hlk] at hkx
      simp only [Option.map_some'] at hkx
      rw [Option.some_inj] at hkx
      have hvne := hjv k v hlk
      have hstripne : pyStrip v ≠ "" := by
        intro hc
        apply hvne
        rw [hc]
        rfl
      rw [List.any_eq_true]
      refine ⟨pyStrip v, ?_, ?_⟩
      · rw [List.mem_filter]
        refine ⟨?_, by simpa using hstripne⟩
        rw [List.mem_map]
        exact ⟨k, hk, by rw [hlk]; rfl⟩
      · rw [Bool.and_eq_true]
        refine ⟨by simpa using hstripne, ?_⟩
        have hmem := (mem_entity_vals_iff ent (pyLower (pyStrip v)) hvne
          hext).mpr ?_
        · simpa using hmem
        · rw [← hkx] at hxcont
          simpa [specNorm] using hxcont

/-- C4: exact matching agrees with the specification's description (value
sets normalized by trim and case-fold, entity values from display name plus
external ids, first entity in iteration order whose value set intersects),
and on the Ada Lovelace example it matches with method `"exact"` and score
`1.0`. -/
theorem exact_match_refines_spec :
    (∀ (ks : List (String × String)) (es : List EntityRec)
        (jk : List String),
      (∀ e ∈ es, WellFormedExt e) →
      (∀ k v, lookup ks k = some v → pyLower (pyStrip v) ≠ "") →
      exact_match ks es jk = exactMatchSpec ks es jk)
    ∧ exact_match [("name", "ada lovelace")]
        [⟨"e1", some "Ada Lovelace", some (.jobj [])⟩] ["name"] = some "e1"
    ∧ (resolve_record (fun ts => ts.map fun _ => [1]) (fun n => toString n)
        "d" "person" ["name"] ["name"] 0.85 false []
        ⟨[⟨"e1", some "Ada Lovelace", some (.jobj [])⟩], ⟨[], [], []⟩,
          ⟨0, 0, 0, 0⟩, 0⟩
        ⟨some "r1", [("name", "ada lovelace")]⟩).db.entity_map.map
          (fun r => (r.entity_id, r.method, r.score)) =
      [("e1", "exact", some 1)] := by
  refine ⟨?_, by decide, by decide⟩
  intro ks es jk hext hjv
  by_cases h0 : jk = [] ∨ ks = []
  · rcases h0 with h | h
    · subst h
      simp only [exact_match, exactMatchSpec]
      simp
      rw [List.find?_eq_none.mpr (fun x _ => by simp)]
      rfl
    · subst h
      simp only [exact_match, exactMatchSpec]
      simp [lookup]
      rw [List.find?_eq_none.mpr (fun x _ => by simp)]
      rfl
  · by_cases hrv : ((jk.map fun k => pyStrip ((lookup ks k).getD "")).filter
        fun v => v ≠ "") = []
    · have hV : (jk.filterMap fun k => (lookup ks k).map specNorm) = [] := by
        rw [List.filterMap_eq_nil_iff]
        intro k hk
        cases hlk : lookup ks k with
        | none => rfl
        | some v =>
          exfalso
          have hvne := hjv k v hlk
          have hstripne : pyStrip v ≠ "" := by
            intro hc
            apply hvne
            rw [hc]
            rfl
          have : pyStrip v ∈ ((jk.map fun k =>
              pyStrip ((lookup ks k).getD "")).filter fun v => v ≠ "") := by
            rw [List.mem_filter]
            refine ⟨?_, by simpa using hstripne⟩
            rw [List.mem_map]
            exact ⟨k, hk, by rw [hlk]; rfl⟩
          rw [hrv] at this
          simp at this
      simp only [exact_match, exactMatchSpec, if_neg h0, hrv, if_pos rfl, hV]
      simp
      rw [List.find?_eq_none.mpr (fun x _ => by simp)]
      rfl
    · simp only [exact_match, exactMatchSpec, if_neg h0, if_neg hrv]
      rw [find?_congr es _ _
        (fun ent hent => exact_pred_agrees ks jk hjv ent (hext ent hent))]

/-- Witness for C4 at the Ada Lovelace inputs. -/
theorem exact_match_refines_spec_witness :
    exact_match [("name", "ada lovelace")]
        [⟨"e1", some "Ada Lovelace", some (.jobj [])⟩] ["name"] =
      exactMatchSpec [("name", "ada lovelace")]
        [⟨"e1", some "Ada Lovelace", some (.jobj [])⟩] ["name"] :=
  exact_match_refines_spec.1 [("name", "ada lovelace")]
    [⟨"e1", some "Ada Lovelace", some (.jobj [])⟩] ["name"]
    (by
      intro e he
      simp only [List.mem_singleton] at he
      subst he
      exact Or.inr ⟨[], rfl, by simp⟩)
    (by
      intro k v h
      simp only [lookup, List.find?] at h
      split at h
      · simp only [Option.map_some', Option.some_inj] at h
        subst h
        decide
      · simp at h)

/-! ### C5: semantic threshold boundary -/

lemma argmaxAux_le (g : Nat → ℚ) :
    ∀ (xs : List ℚ) (i : Nat) (bv : ℚ) (bi : Nat),
      (∀ j, j < xs.length → g (i + j) = xs.getD j 0) → g bi = bv →
      bv ≤ g (argmaxAux xs i bv bi) ∧
        ∀ j, j < xs.length → xs.getD j 0 ≤ g (argmaxAux xs i bv bi) := by
  intro xs
  induction xs with
  | nil =>
    intro i bv bi hg hbi
    exact ⟨le_of_eq hbi.symm, fun j hj => by simp at hj⟩
  | cons x xs ih =>
    intro i bv bi hg hbi
    have hgx : g i = x := by simpa using hg 0 (by simp)
    have hshift : ∀ j, j < xs.length → g (i + 1 + j) = xs.getD j 0 := by
      intro j hj
      have := hg (j + 1) (by simpa using Nat.succ_lt_succ hj)
      have harith : i + (j + 1) = i + 1 + j := by omega
      rw [harith] at this
      simpa using this
    by_cases hlt : bv < x
    · have := ih (i + 1) x i hshift hgx
      simp only [argmaxAux, if_pos hlt]
      refine ⟨le_trans (le_of_lt hlt) this.1, ?_⟩
      intro j hj
      cases j with
      | zero => simpa using this.1
      | succ j' => simpa using this.2 j' (Nat.lt_of_succ_lt_succ hj)
    · have := ih (i + 1) bv bi hshift hbi
      simp only [argmaxAux, if_neg hlt]
      refine ⟨this.1, ?_⟩
      intro j hj
      cases j with
      | zero =>
        have hxbv : x ≤ bv := le_of_not_lt hlt
        simpa using le_trans hxbv this.1
      | succ j' => simpa using this.2 j' (Nat.lt_of_succ_lt_succ hj)

lemma argmax_is_max (l : List ℚ) :
    ∀ j, j < l.length → l.getD j 0 ≤ l.getD (argmaxIdx l) 0 := by
  cases l with
  | nil => intro j hj; simp at hj
  | cons x xs =>
    intro j hj
    have hmain := argmaxAux_le (fun k => (x :: xs).getD k 0) xs 1 x 0
      (fun j' hj' => by simp [Nat.add_comm]) rfl
    cases j with
    | zero => simpa [argmaxIdx] using hmain.1
    | succ j' =>
      simpa [argmaxIdx] using hmain.2 j' (Nat.lt_of_succ_lt_succ hj)

/-- C5: semantic matching selects the candidate with the maximum similarity
score (first maximal index) and accepts exactly when the best score reaches
the threshold: at-threshold is accepted, strictly below is rejected with the
best score computed and returned but no match. -/
theorem semantic_match_threshold (embed : List String → List (List ℚ))
    (text : String) (es : List EntityRec) (thr : ℚ) (htext : text ≠ "")
    (hes : es.isEmpty = false) (hvalid : validTexts es ≠ [])
    (hlen : (embed (semTexts text es)).length = (semTexts text es).length) :
    (∀ j, j < (semScores embed text es).length →
        (semScores embed text es).getD j 0 ≤
          (semScores embed text es).getD
            (argmaxIdx (semScores embed text es)) 0)
    ∧ (thr ≤ (semScores embed text es).getD
          (argmaxIdx (semScores embed text es)) 0 →
        semantic_match embed text es thr =
          (some ((validTexts es).getD
              (argmaxIdx (semScores embed text es)) ("", "")).1,
            (semScores embed text es).getD
              (argmaxIdx (semScores embed text es)) 0))
    ∧ ((semScores embed text es).getD
          (argmaxIdx (semScores embed text es)) 0 = thr →
        semantic_match embed text es thr =
          (some ((validTexts es).getD
              (argmaxIdx (semScores embed text es)) ("", "")).1, thr))
    ∧ ((semScores embed text es).getD
          (argmaxIdx (semScores embed text es)) 0 < thr →
        semantic_match embed text es thr =
          (none, (semScores embed text es).getD
            (argmaxIdx (semScores embed text es)) 0)) := by
  have hnotempty : ¬(text = "" ∨ es.isEmpty) := by
    simp [htext, hes]
  have hlen2 : ¬((embed (semTexts text es)).length < 2) := by
    rw [hlen]
    simp only [semTexts, List.length_cons, List.length_map]
    have : validTexts es ≠ [] := hvalid
    have hpos : 0 < (validTexts es).length := List.length_pos.mpr this
    omega
  refine ⟨argmax_is_max (semScores embed text es), ?_, ?_, ?_⟩
  · intro hge
    simp only [semantic_match, if_neg hnotempty, if_neg hvalid, if_neg hlen2,
      if_pos hge]
  · intro heq
    have hge : thr ≤ (semScores embed text es).getD
        (argmaxIdx (semScores embed text es)) 0 := le_of_eq heq.symm
    simp only [semantic_match, if_neg hnotempty, if_neg hvalid, if_neg hlen2,
      if_pos hge, heq]
    simp
  · intro hlt
    have hnge : ¬(thr ≤ (semScores embed text es).getD
        (argmaxIdx (semScores embed text es)) 0) := not_le_of_lt hlt
    simp only [semantic_match, if_neg hnotempty, if_neg hvalid, if_neg hlen2,
      if_neg hnge]

/-- Witness for C5: a candidate whose similarity is exactly the threshold is
accepted. -/
theorem semantic_match_threshold_witness :
    semantic_match
        (fun ts => match ts with
          | [_, _] => [[1, 0], [(85 : ℚ)/100, 1]]
          | _ => [])
        "x" [⟨"e1", some "Bob", none⟩] 0.85 =
      (some ((validTexts [⟨"e1", some "Bob", none⟩]).getD
          (argmaxIdx (semScores
            (fun ts => match ts with
              | [_, _] => [[1, 0], [(85 : ℚ)/100, 1]]
              | _ => [])
            "x" [⟨"e1", some "Bob", none⟩])) ("", "")).1, 0.85) :=
  (semantic_match_threshold
    (fun ts => match ts with
      | [_, _] => [[1, 0], [(85 : ℚ)/100, 1]]
      | _ => [])
    "x" [⟨"e1", some "Bob", none⟩] 0.85 (by decide) (by decide) (by decide)
    (by decide)).2.2.1
    (by
      have hb : pyStrip "Bob" = "Bob" := by decide
      have h1 : (("Bob" : String) = "") = False := by simp
      have h2 : (("Bob" : String) = "<empty>") = False := by simp
      norm_num [semScores, semTexts, validTexts, entityTexts, dotQ,
        argmaxIdx, argmaxAux, hb, h1, h2, List.getD])

/-! ### C6: within-batch consolidation via the extended candidate list -/

set_option maxHeartbeats 1600000 in
/-- C6: in a two-record job with identical semantic-field text and
`createIfNoMatch = true`, the first record is created and its entity is
appended to the in-memory candidate list, so the second record matches it
semantically: the tallies are one `created` and one `semantic` (not two
`created`), and the mapping rows carry those methods.  The embedding client
is assumed to embed each text separately with self-similarity at least the
threshold (unit-normalized vectors give self-similarity `1 ≥ 0.85`). -/
theorem run_resolution_within_batch_consolidation
    (embedOne : String → List ℚ) (sha : String → String)
    (loads : String → Option PyJson) (fresh : Nat → String) (model : String)
    (hdot : (0.85 : ℚ) ≤ dotQ (embedOne "zorblat") (embedOne "zorblat")) :
    (run_resolution (fun ts => ts.map embedOne) sha loads fresh 0 model
        ⟨[], [], []⟩
        ⟨"j", "d", "person",
          ⟨[⟨some "r1", [("name", "zorblat")]⟩,
            ⟨some "r2", [("name", "zorblat")]⟩], [], none, none,
            some true⟩⟩).2 = ⟨0, 1, 1, 0⟩
    ∧ (run_resolution (fun ts => ts.map embedOne) sha loads fresh 0 model
        ⟨[], [], []⟩
        ⟨"j", "d", "person",
          ⟨[⟨some "r1", [("name", "zorblat")]⟩,
            ⟨some "r2", [("name", "zorblat")]⟩], [], none, none,
            some true⟩⟩).1.entity_map.map
          (fun r => (r.source_record_id, r.method)) =
      [(some "r1", "created"), (some "r2", "semantic")] := by
  have hsem : semantic_match (fun ts => ts.map embedOne)
      (build_text [("name", "zorblat")] ["name"])
      ([⟨fresh 0, some "zorblat", none⟩] : List EntityRec) 0.85 =
      (some (fresh 0), dotQ (embedOne "zorblat") (embedOne "zorblat")) := by
    show (if dotQ (embedOne "zorblat") (embedOne "zorblat") ≥ (0.85 : ℚ) then
        (some (fresh 0), dotQ (embedOne "zorblat") (embedOne "zorblat"))
      else (none, dotQ (embedOne "zorblat") (embedOne "zorblat"))) =
      (some (fresh 0), dotQ (embedOne "zorblat") (embedOne "zorblat"))
    rw [if_pos hdot]
  have hb := resolve_record_semantic_branch (fun ts => ts.map embedOne) fresh
    "d" "person" [] ["name"] 0.85 true []
    ⟨[⟨fresh 0, some "zorblat", none⟩],
      ⟨[⟨fresh 0, "person", some "zorblat",
          PyJson.jobj [("name", PyJson.jstr "zorblat")]⟩],
        [⟨fresh 1, "d", fresh 0, some "r1", some [("name", "zorblat")],
          "created", some 1⟩], []⟩,
      ⟨0, 0, 1, 0⟩, 2⟩
    ⟨some "r2", [("name", "zorblat")]⟩ "r2" (fresh 0)
    (dotQ (embedOne "zorblat") (embedOne "zorblat")) rfl (by decide)
    (by decide) (Or.inl rfl) (by decide) hsem
  have h2 : resolve_record (fun ts => ts.map embedOne) fresh "d" "person" []
      ["name"] 0.85 true []
      ⟨[⟨fresh 0, some "zorblat", none⟩],
        ⟨[⟨fresh 0, "person", some "zorblat",
            PyJson.jobj [("name", PyJson.jstr "zorblat")]⟩],
          [⟨fresh 1, "d", fresh 0, some "r1", some [("name", "zorblat")],
            "created", some 1⟩], []⟩,
        ⟨0, 0, 1, 0⟩, 2⟩
      ⟨some "r2", [("name", "zorblat")]⟩ =
      ⟨[⟨fresh 0, some "zorblat", none⟩],
        ⟨[⟨fresh 0, "person", some "zorblat",
            PyJson.jobj [("name", PyJson.jstr "zorblat")]⟩],
          [⟨fresh 1, "d", fresh 0, some "r1", some [("name", "zorblat")],
            "created", some 1⟩,
           ⟨fresh 2, "d", fresh 0, some "r2", some [("name", "zorblat")],
            "semantic",
            some (dotQ (embedOne "zorblat") (embedOne "zorblat"))⟩], []⟩,
        ⟨0, 1, 1, 0⟩, 3⟩ := by
    rw [hb]
    rfl
  have hrun : run_resolution (fun ts => ts.map embedOne) sha loads fresh 0
      model ⟨[], [], []⟩
      ⟨"j", "d", "person",
        ⟨[⟨some "r1", [("name", "zorblat")]⟩,
          ⟨some "r2", [("name", "zorblat")]⟩], [], none, none, some true⟩⟩ =
      (⟨[⟨fresh 0, "person", some "zorblat",
            PyJson.jobj [("name", PyJson.jstr "zorblat")]⟩],
         [⟨fresh 1, "d", fresh 0, some "r1", some [("name", "zorblat")],
            "created", some 1⟩,
          ⟨fresh 2, "d", fresh 0, some "r2", some [("name", "zorblat")],
            "semantic",
            some (dotQ (embedOne "zorblat") (embedOne "zorblat"))⟩],
         [⟨"j", "d", "resolution",
            ⟨config_hash sha
              ⟨[⟨some "r1", [("name", "zorblat")]⟩,
                ⟨some "r2", [("name", "zorblat")]⟩], [], none, none,
                some true⟩, model, 0, 1, 1, 0⟩⟩]⟩,
        ⟨0, 1, 1, 0⟩) := by
    have hstep : run_resolution (fun ts => ts.map embedOne) sha loads fresh 0
        model ⟨[], [], []⟩
        ⟨"j", "d", "person",
          ⟨[⟨some "r1", [("name", "zorblat")]⟩,
            ⟨some "r2", [("name", "zorblat")]⟩], [], none, none, some true⟩⟩ =
        (log_provenance
          (resolve_record (fun ts => ts.map embedOne) fresh "d" "person" []
            ["name"] 0.85 true []
            ⟨[⟨fresh 0, some "zorblat", none⟩],
              ⟨[⟨fresh 0, "person", some "zorblat",
                  PyJson.jobj [("name", PyJson.jstr "zorblat")]⟩],
                [⟨fresh 1, "d", fresh 0, some "r1",
                  some [("name", "zorblat")], "created", some 1⟩], []⟩,
              ⟨0, 0, 1, 0⟩, 2⟩
            ⟨some "r2", [("name", "zorblat")]⟩).db "j" "d"
          (config_hash sha
            ⟨[⟨some "r1", [("name", "zorblat")]⟩,
              ⟨some "r2", [("name", "zorblat")]⟩], [], none, none,
              some true⟩) model
          (resolve_record (fun ts => ts.map embedOne) fresh "d" "person" []
            ["name"] 0.85 true []
            ⟨[⟨fresh 0, some "zorblat", none⟩],
              ⟨[⟨fresh 0, "person", some "zorblat",
                  PyJson.jobj [("name", PyJson.jstr "zorblat")]⟩],
                [⟨fresh 1, "d", fresh 0, some "r1",
                  some [("name", "zorblat")], "created", some 1⟩], []⟩,
              ⟨0, 0, 1, 0⟩, 2⟩
            ⟨some "r2", [("name", "zorblat")]⟩).counts,
         (resolve_record (fun ts => ts.map embedOne) fresh "d" "person" []
            ["name"] 0.85 true []
            ⟨[⟨fresh 0, some "zorblat", none⟩],
              ⟨[⟨fresh 0, "person", some "zorblat",
                  PyJson.jobj [("name", PyJson.jstr "zorblat")]⟩],
                [⟨fresh 1, "d", fresh 0, some "r1",
                  some [("name", "zorblat")], "created", some 1⟩], []⟩,
              ⟨0, 0, 1, 0⟩, 2⟩
            ⟨some "r2", [("name", "zorblat")]⟩).counts) := rfl
    rw [hstep, h2]
    rfl
  exact ⟨by simp [hrun], by simp [hrun]⟩

/-- Witness for C6 with a concrete unit-normalized embedding stub. -/
theorem run_resolution_within_batch_consolidation_witness :
    (run_resolution (fun ts => ts.map fun _ => [(1 : ℚ)]) (fun _ => "h")
        (fun _ => none) (fun n => toString n) 0 "m" ⟨[], [], []⟩
        ⟨"j", "d", "person",
          ⟨[⟨some "r1", [("name", "zorblat")]⟩,
            ⟨some "r2", [("name", "zorblat")]⟩], [], none, none,
            some true⟩⟩).2 = ⟨0, 1, 1, 0⟩ :=
  (run_resolution_within_batch_consolidation (fun _ => [(1 : ℚ)])
    (fun _ => "h") (fun _ => none) (fun n => toString n) "m"
    (by norm_num [dotQ])).1

/-! ### C7: provenance events -/

lemma upsert_provenance (db : DB) (rid d e s : String)
    (ks : List (String × String)) (m : String) (sc : Option ℚ) :
    (upsert_entity_map_insert_only db rid d e s ks m sc).1.provenance =
      db.provenance := by
  unfold upsert_entity_map_insert_only
  split <;> rfl

lemma resolve_record_provenance (embed : List String → List (List ℚ))
    (fresh : Nat → String) (d et : String) (jk sf : List String) (thr : ℚ)
    (cinm : Bool) (existing : List String) (st : RunState) (rec : Rec) :
    (resolve_record embed fresh d et jk sf thr cinm existing st
      rec).db.provenance = st.db.provenance := by
  unfold resolve_record
  simp only []
  repeat' split
  all_goals first
    | rfl
    | exact upsert_provenance _ _ _ _ _ _ _ _

lemma foldl_resolve_provenance (embed : List String → List (List ℚ))
    (fresh : Nat → String) (d et : String) (jk sf : List String) (thr : ℚ)
    (cinm : Bool) (existing : List String) :
    ∀ (l : List Rec) (st : RunState),
      ((l.foldl (resolve_record embed fresh d et jk sf thr cinm existing)
        st).db.provenance) = st.db.provenance := by
  intro l
  induction l with
  | nil => intro st; rfl
  | cons r rs ih =>
    intro st
    rw [List.foldl_cons, ih, resolve_record_provenance]

/-- C7 (amended): every execution of `run_resolution` on a job with a
nonempty `records` list emits exactly one provenance event, whose detail
carries the stable hash of the canonicalized sorted-key configuration JSON,
the embedding-model identifier, and the four per-method tallies.  (A job
with an empty `records` list returns early and emits none — see the
counterexample.) -/
theorem run_resolution_emits_one_provenance_event
    (embed : List String → List (List ℚ)) (sha : String → String)
    (loads : String → Option PyJson) (fresh : Nat → String) (ctr0 : Nat)
    (model : String) (db : DB) (job : Job)
    (hrec : job.config.records ≠ []) :
    (run_resolution embed sha loads fresh ctr0 model db job).1.provenance =
      db.provenance ++
        [⟨job.id, job.dataset_id, "resolution",
          ⟨config_hash sha job.config, model,
            (run_resolution embed sha loads fresh ctr0 model db job).2.exact,
            (run_resolution embed sha loads fresh ctr0 model db
              job).2.semantic,
            (run_resolution embed sha loads fresh ctr0 model db
              job).2.created,
            (run_resolution embed sha loads fresh ctr0 model db
              job).2.unmatched⟩⟩] := by
  have hne : job.config.records.isEmpty = false := by
    cases h : job.config.records with
    | nil => exact absurd h hrec
    | cons a as => rfl
  unfold run_resolution
  simp only [hne, Bool.false_eq_true, reduceIte, log_provenance]
  rw [foldl_resolve_provenance]

/-- Witness for C7 at a concrete one-record job (tallied unmatched). -/
theorem run_resolution_emits_one_provenance_event_witness :
    (run_resolution (fun _ => []) (fun _ => "h") (fun _ => none)
        (fun _ => "u") 0 "m" ⟨[], [], []⟩
        ⟨"j", "d", "person",
          ⟨[⟨some "r1", []⟩], [], none, none, none⟩⟩).1.provenance =
      ([] : List ProvEvent) ++
        [⟨"j", "d", "resolution",
          ⟨config_hash (fun _ => "h")
              ⟨[⟨some "r1", []⟩], [], none, none, none⟩, "m",
            (run_resolution (fun _ => []) (fun _ => "h") (fun _ => none)
              (fun _ => "u") 0 "m" ⟨[], [], []⟩
              ⟨"j", "d", "person",
                ⟨[⟨some "r1", []⟩], [], none, none, none⟩⟩).2.exact,
            (run_resolution (fun _ => []) (fun _ => "h") (fun _ => none)
              (fun _ => "u") 0 "m" ⟨[], [], []⟩
              ⟨"j", "d", "person",
                ⟨[⟨some "r1", []⟩], [], none, none, none⟩⟩).2.semantic,
            (run_resolution (fun _ => []) (fun _ => "h") (fun _ => none)
              (fun _ => "u") 0 "m" ⟨[], [], []⟩
              ⟨"j", "d", "person",
                ⟨[⟨some "r1", []⟩], [], none, none, none⟩⟩).2.created,
            (run_resolution (fun _ => []) (fun _ => "h") (fun _ => none)
              (fun _ => "u") 0 "m" ⟨[], [], []⟩
              ⟨"j", "d", "person",
                ⟨[⟨some "r1", []⟩], [], none, none,
                  none⟩⟩).2.unmatched⟩⟩] :=
  run_resolution_emits_one_provenance_event (fun _ => []) (fun _ => "h")
    (fun _ => none) (fun _ => "u") 0 "m" ⟨[], [], []⟩
    ⟨"j", "d", "person", ⟨[⟨some "r1", []⟩], [], none, none, none⟩⟩
    (by simp)

/-- C7 counterexample: a job whose `records` list is empty returns the
zero tally before `log_provenance` is reached, so that execution emits zero
provenance events, not one. -/
theorem run_resolution_empty_records_no_event :
    (run_resolution (fun _ => []) (fun s => s) (fun _ => none) (fun _ => "u")
        0 "m" ⟨[], [], []⟩
        ⟨"j", "d", "person",
          ⟨[], [], none, none, none⟩⟩).1.provenance.length = 0
    ∧ (0 : Nat) ≠ 1 :=
  ⟨rfl, by decide⟩

/-! ### C8: recognized configuration options and defaults -/

/-- C8 (amended): `run_resolution` applies the documented defaults
(`["name"]`, `0.85`, `false`) when `semanticFields`, `threshold` or
`createIfNoMatch` is absent, and uses a supplied value when it is present
and truthy; but because the extraction is written with Python `or`, a
present falsy value (`0`, `0.0`, `[]`, `null`) also falls back to the
default. -/
theorem config_recognized_options :
    (∀ c : Config, c.semanticFields = none → effSemanticFields c = ["name"])
    ∧ (∀ c : Config, c.threshold = none → effThreshold c = 0.85)
    ∧ (∀ c : Config, c.createIfNoMatch = none → effCreateIfNoMatch c = false)
    ∧ (∀ (c : Config) (l : List String), c.semanticFields = some l →
        l ≠ [] → effSemanticFields c = l)
    ∧ (∀ (c : Config) (q : ℚ), c.threshold = some q → q ≠ 0 →
        effThreshold c = q)
    ∧ (∀ (c : Config) (b : Bool), c.createIfNoMatch = some b →
        effCreateIfNoMatch c = b)
    ∧ (∀ c : Config, c.semanticFields = some [] →
        effSemanticFields c = ["name"])
    ∧ (∀ c : Config, c.threshold = some 0 → effThreshold c = 0.85) := by
  refine ⟨?_, ?_, ?_, ?_, ?_, ?_, ?_, ?_⟩
  · intro c h; simp [effSemanticFields, h]
  · intro c h; simp [effThreshold, h]
  · intro c h; simp [effCreateIfNoMatch, h]
  · intro c l h hl; simp [effSemanticFields, h, hl]
  · intro c q h hq; simp [effThreshold, h, hq]
  · intro c b h; simp [effCreateIfNoMatch, h]
  · intro c h; simp [effSemanticFields, h]
  · intro c h; simp [effThreshold, h]

/-- Witness for C8 at concrete configurations. -/
theorem config_recognized_options_witness :
    effThreshold ⟨[], [], none, some 0.9, none⟩ = 0.9 :=
  config_recognized_options.2.2.2.2.1 ⟨[], [], none, some 0.9, none⟩ 0.9 rfl
    (by norm_num)

/-- C8 counterexample: a configuration that supplies `threshold = 0.0` (or
`semanticFields = []`) does not get its supplied value used — the falsy
value is replaced by the default, refuting the claim that every present
value is the one used. -/
theorem config_falsy_value_overridden :
    effThreshold ⟨[], [], none, some 0, none⟩ = 0.85
    ∧ (0.85 : ℚ) ≠ 0
    ∧ effSemanticFields ⟨[], [], some [], none, none⟩ = ["name"]
    ∧ (["name"] : List String) ≠ [] := by
  refine ⟨by norm_num [effThreshold], by norm_num, by simp [effSemanticFields],
    by simp⟩

/-! ### C9: defensive parse of stored external_ids -/

/-- C9 (amended): `load_entities` never fails: stored text that fails to
parse becomes the empty map, parsed text passes through, and non-text
values are kept as they are.  Under the data-model assumption that every
stored `external_ids` is either a map or serialized text, and that the
parser only produces maps, every returned entity carries a map.  (Text
denoting valid non-object JSON passes through unchanged — see the
counterexample.) -/
theorem load_entities_defensive_parse :
    (∀ (loads : String → Option PyJson) (s : String), loads s = none →
      defensive_parse loads (.jstr s) = .jobj [])
    ∧ (∀ (loads : String → Option PyJson) (s : String) (j : PyJson),
        loads s = some j → defensive_parse loads (.jstr s) = j)
    ∧ (∀ (loads : String → Option PyJson) (v : PyJson), isMapB v = true →
        defensive_parse loads v = v)
    ∧ (∀ (loads : String → Option PyJson) (db : DB) (t : String),
        (∀ s j, loads s = some j → isMapB j = true) →
        (∀ r ∈ db.entities, isMapB r.external_ids = true ∨
          ∃ s, r.external_ids = .jstr s) →
        ∀ e ∈ load_entities loads db t,
          ∃ j, e.external_ids = some j ∧ isMapB j = true) := by
  refine ⟨?_, ?_, ?_, ?_⟩
  · intro loads s h; simp [defensive_parse, h]
  · intro loads s j h; simp [defensive_parse, h]
  · intro loads v h
    cases v <;> simp_all [defensive_parse, isMapB]
  · intro loads db t hmap hrows e he
    simp only [load_entities, List.mem_map, List.mem_filter] at he
    obtain ⟨r, ⟨hrmem, _⟩, hre⟩ := he
    refine ⟨defensive_parse loads r.external_ids, ?_, ?_⟩
    · rw [← hre]
    · rcases hrows r hrmem with hm | ⟨s, hs⟩
      · cases hv : r.external_ids <;> rw [hv] at hm <;>
          simp_all [defensive_parse, isMapB]
      · rw [hs]
        cases hl : loads s with
        | none => simp [defensive_parse, hl, isMapB]
        | some j =>
          simp only [defensive_parse, hl]
          exact hmap s j hl

/-- Witness for C9 at a concrete database: malformed text yields the empty
map and the load returns every entity of the type. -/
theorem load_entities_defensive_parse_witness :
    ∃ j, (⟨"e1", some "X",
        some (defensive_parse (fun _ => none) (.jstr "not json"))⟩ :
          EntityRec).external_ids = some j ∧ isMapB j = true :=
  load_entities_defensive_parse.2.2.2 (fun _ => none)
    ⟨[⟨"e1", "person", some "X", .jstr "not json"⟩], [], []⟩ "person"
    (by intro s j h; cases h)
    (by
      intro r hr
      simp only [List.mem_singleton] at hr
      subst hr
      exact Or.inr ⟨"not json", rfl⟩)
    ⟨"e1", some "X", some (defensive_parse (fun _ => none) (.jstr "not json"))⟩
    (by simp [load_entities])

/-- C9 counterexample: a stored `external_ids` text of `"[1, 2]"` is valid
JSON but not an object; `json.loads` succeeds, so the defensive parse keeps
the array and the returned entity's `external_ids` is not structurally a
map. -/
theorem load_entities_array_text_not_map :
    (load_entities
        (fun s => if s = "[1, 2]" then
          some (.jarr [.jnum 1, .jnum 2]) else none)
        ⟨[⟨"e1", "person", some "X", .jstr "[1, 2]"⟩], [], []⟩ "person") =
      [⟨"e1", some "X", some (.jarr [.jnum 1, .jnum 2])⟩]
    ∧ isMapB (.jarr [.jnum 1, .jnum 2]) = false :=
  ⟨rfl, rfl⟩

/-! ### C10: records without a source_record_id get a fresh uuid -/

lemma resolve_record_exact_branch_fresh (embed : List String → List (List ℚ))
    (fresh : Nat → String) (d et : String) (jk sf : List String) (thr : ℚ)
    (cinm : Bool) (existing : List String) (st : RunState) (rec : Rec)
    (e : String)
    (hsid : rec.source_record_id = none ∨ rec.source_record_id = some "")
    (hnot : fresh st.ctr ∉ existing) (hjk : jk ≠ [])
    (hx : exact_match rec.keys st.entities jk = some e) :
    resolve_record embed fresh d et jk sf thr cinm existing st rec =
      { st with
        db := (upsert_entity_map_insert_only st.db (fresh (st.ctr + 1)) d e
          (fresh st.ctr) rec.keys "exact" (some 1)).1,
        counts := if (upsert_entity_map_insert_only st.db (fresh (st.ctr + 1))
            d e (fresh st.ctr) rec.keys "exact" (some 1)).2
          then st.counts.bump "exact" else st.counts,
        ctr := st.ctr + 1 + 1 } := by
  rcases hsid with h | h <;>
    (unfold resolve_record
     rw [h]
     simp only [reduceIte, if_neg hnot, if_neg hjk, hx])

lemma resolve_record_unmatched_branch_fresh
    (embed : List String → List (List ℚ)) (fresh : Nat → String)
    (d et : String) (jk sf : List String) (thr : ℚ) (existing : List String)
    (st : RunState) (rec : Rec)
    (hsid : rec.source_record_id = none ∨ rec.source_record_id = some "")
    (hnot : fresh st.ctr ∉ existing)
    (hnx : jk = [] ∨ exact_match rec.keys st.entities jk = none)
    (hnosem : build_text rec.keys sf = "" ∨
      (semantic_match embed (build_text rec.keys sf) st.entities thr).1 =
        none) :
    resolve_record embed fresh d et jk sf thr false existing st rec =
      { st with
        counts := st.counts.bump "unmatched",
        ctr := st.ctr + 1 } := by
  rcases hsid with h | h <;>
    (unfold resolve_record
     rw [h]
     rcases hnx with hjk | hx
     · rcases hnosem with ht | hsmn
       · simp only [reduceIte, if_neg hnot, hjk, if_pos rfl, ht]
         rfl
       · rcases hsmeq : semantic_match embed (build_text rec.keys sf)
           st.entities thr with ⟨o, b⟩
         rw [hsmeq] at hsmn
         simp only at hsmn
         subst hsmn
         by_cases ht : build_text rec.keys sf = ""
         · simp only [reduceIte, if_neg hnot, hjk, if_pos rfl, ht]
           rfl
         · simp only [reduceIte, if_neg hnot, hjk, if_pos rfl, ht, hsmeq]
           rfl
     · by_cases hjk : jk = []
       · rcases hnosem with ht | hsmn
         · simp only [reduceIte, if_neg hnot, hjk, if_pos rfl, ht]
           rfl
         · rcases hsmeq : semantic_match embed (build_text rec.keys sf)
             st.entities thr with ⟨o, b⟩
           rw [hsmeq] at hsmn
           simp only at hsmn
           subst hsmn
           by_cases ht : build_text rec.keys sf = ""
           · simp only [reduceIte, if_neg hnot, hjk, if_pos rfl, ht]
             rfl
           · simp only [reduceIte, if_neg hnot, hjk, if_pos rfl, ht, hsmeq]
             rfl
       · rcases hnosem with ht | hsmn
         · simp only [reduceIte, if_neg hnot, if_neg hjk, hx, ht]
           rfl
         · rcases hsmeq : semantic_match embed (build_text rec.keys sf)
             st.entities thr with ⟨o, b⟩
           rw [hsmeq] at hsmn
           simp only at hsmn
           subst hsmn
           by_cases ht : build_text rec.keys sf = ""
           · simp only [reduceIte, if_neg hnot, if_neg hjk, hx, ht]
             rfl
           · simp only [reduceIte, if_neg hnot, if_neg hjk, hx, ht, hsmeq]
             rfl)

set_option maxHeartbeats 1600000 in
/-- C10: a record whose `source_record_id` is absent (or empty, which is
falsy) gets a freshly generated uuid as its id.  Assuming the fresh id does
not collide with an existing mapping key, the record is never skipped by the
idempotence check: an exact match writes a mapping row under the fresh id,
an unmatched record is re-tallied; and re-running the one-record Ada job
twice inserts one new row under a new fresh id on each run. -/
theorem run_resolution_fresh_sid_rerun :
    (∀ (embed : List String → List (List ℚ)) (fresh : Nat → String)
        (d et : String) (jk sf : List String) (thr : ℚ) (cinm : Bool)
        (existing : List String) (st : RunState) (rec : Rec),
      (rec.source_record_id = none ∨ rec.source_record_id = some "") →
      ((fresh st.ctr ∈ existing →
          resolve_record embed fresh d et jk sf thr cinm existing st rec =
            { st with ctr := st.ctr + 1 })
      ∧ (fresh st.ctr ∉ existing → ∀ e, jk ≠ [] →
          exact_match rec.keys st.entities jk = some e →
          mapping_exists st.db d (fresh st.ctr) = false →
          (resolve_record embed fresh d et jk sf thr cinm existing st
            rec).db.entity_map = st.db.entity_map ++
              [⟨fresh (st.ctr + 1), d, e, some (fresh st.ctr),
                (if rec.keys = [] then none else some rec.keys), "exact",
                some 1⟩]
          ∧ (resolve_record embed fresh d et jk sf thr cinm existing st
              rec).counts = st.counts.bump "exact")
      ∧ (fresh st.ctr ∉ existing →
          (jk = [] ∨ exact_match rec.keys st.entities jk = none) →
          (build_text rec.keys sf = "" ∨
            (semantic_match embed (build_text rec.keys sf) st.entities
              thr).1 = none) →
          cinm = false →
          resolve_record embed fresh d et jk sf thr cinm existing st rec =
            { st with
              counts := st.counts.bump "unmatched",
              ctr := st.ctr + 1 })))
    ∧ (∀ fresh : Nat → String, fresh 2 ≠ fresh 0 →
        (run_resolution (fun _ => []) (fun _ => "h") (fun _ => none) fresh 0
            "m" ⟨[⟨"e1", "person", some "Ada Lovelace", .jobj []⟩], [], []⟩
            ⟨"j", "d", "person",
              ⟨[⟨none, [("name", "ada lovelace")]⟩], ["name"], none, none,
                none⟩⟩).1.entity_map.map
            (fun r => (r.source_record_id, r.method, r.entity_id)) =
          [(some (fresh 0), "exact", "e1")]
        ∧ (run_resolution (fun _ => []) (fun _ => "h") (fun _ => none) fresh
            2 "m"
            (run_resolution (fun _ => []) (fun _ => "h") (fun _ => none)
              fresh 0 "m"
              ⟨[⟨"e1", "person", some "Ada Lovelace", .jobj []⟩], [], []⟩
              ⟨"j", "d", "person",
                ⟨[⟨none, [("name", "ada lovelace")]⟩], ["name"], none, none,
                  none⟩⟩).1
            ⟨"j", "d", "person",
              ⟨[⟨none, [("name", "ada lovelace")]⟩], ["name"], none, none,
                none⟩⟩).1.entity_map.map
            (fun r => (r.source_record_id, r.method, r.entity_id)) =
          [(some (fresh 0), "exact", "e1"),
            (some (fresh 2), "exact", "e1")]) := by
  constructor
  · intro embed fresh d et jk sf thr cinm existing st rec hsid
    refine ⟨?_, ?_, ?_⟩
    · intro hmem
      rcases hsid with h | h <;>
        (unfold resolve_record
         rw [h]
         simp only [reduceIte, if_pos hmem])
    · intro hnot e hjk hx hm
      rw [resolve_record_exact_branch_fresh embed fresh d et jk sf thr cinm
        existing st rec e hsid hnot hjk hx]
      rw [upsert_of_no_mapping st.db (fresh (st.ctr + 1)) d e (fresh st.ctr)
        rec.keys "exact" (some 1) hm]
      exact ⟨rfl, rfl⟩
    · intro hnot hnx hnosem hcf
      subst hcf
      exact resolve_record_unmatched_branch_fresh embed fresh d et jk sf thr
        existing st rec hsid hnot hnx hnosem
  · intro fresh hf
    have h1 : run_resolution (fun _ => []) (fun _ => "h") (fun _ => none)
        fresh 0 "m" ⟨[⟨"e1", "person", some "Ada Lovelace", .jobj []⟩], [],
          []⟩
        ⟨"j", "d", "person",
          ⟨[⟨none, [("name", "ada lovelace")]⟩], ["name"], none, none,
            none⟩⟩ =
        (⟨[⟨"e1", "person", some "Ada Lovelace", .jobj []⟩],
          [⟨fresh 1, "d", "e1", some (fresh 0),
            some [("name", "ada lovelace")], "exact", some 1⟩],
          [⟨"j", "d", "resolution",
            ⟨config_hash (fun _ => "h")
              ⟨[⟨none, [("name", "ada lovelace")]⟩], ["name"], none, none,
                none⟩, "m", 1, 0, 0, 0⟩⟩]⟩,
          ⟨1, 0, 0, 0⟩) := rfl
    refine ⟨by rw [h1]; rfl, ?_⟩
    rw [h1]
    have hnot : fresh 2 ∉
        ((load_existing_mappings
          ⟨[⟨"e1", "person", some "Ada Lovelace", .jobj []⟩],
            [⟨fresh 1, "d", "e1", some (fresh 0),
              some [("name", "ada lovelace")], "exact", some 1⟩],
            [⟨"j", "d", "resolution",
              ⟨config_hash (fun _ => "h")
                ⟨[⟨none, [("name", "ada lovelace")]⟩], ["name"], none, none,
                  none⟩, "m", 1, 0, 0, 0⟩⟩]⟩ "d").map Prod.fst) := by
      simp only [load_existing_mappings, List.filter, List.filterMap,
        List.map]
      intro hc
      simp at hc
      exact hf hc
    have hx : exact_match [("name", "ada lovelace")]
        ([⟨"e1", some "Ada Lovelace", some (.jobj [])⟩] : List EntityRec)
        ["name"] = some "e1" := by decide
    have hm : mapping_exists
        (⟨[⟨"e1", "person", some "Ada Lovelace", .jobj []⟩],
          [⟨fresh 1, "d", "e1", some (fresh 0),
            some [("name", "ada lovelace")], "exact", some 1⟩],
          [⟨"j", "d", "resolution",
            ⟨config_hash (fun _ => "h")
              ⟨[⟨none, [("name", "ada lovelace")]⟩], ["name"], none, none,
                none⟩, "m", 1, 0, 0, 0⟩⟩]⟩ : DB) "d" (fresh 2) = false := by
      simp only [mapping_exists, List.any_eq_false]
      intro r hr
      simp only [List.mem_singleton] at hr
      subst hr
      simp only [Bool.and_eq_true, beq_iff_eq, Option.some.injEq, not_and]
      intro _ hc
      exact hf hc.symm
    have hb := resolve_record_exact_branch_fresh (fun _ => []) fresh "d"
      "person" ["name"] ["name"] 0.85 false
      ((load_existing_mappings
        ⟨[⟨"e1", "person", some "Ada Lovelace", .jobj []⟩],
          [⟨fresh 1, "d", "e1", some (fresh 0),
            some [("name", "ada lovelace")], "exact", some 1⟩],
          [⟨"j", "d", "resolution",
            ⟨config_hash (fun _ => "h")
              ⟨[⟨none, [("name", "ada lovelace")]⟩], ["name"], none, none,
                none⟩, "m", 1, 0, 0, 0⟩⟩]⟩ "d").map Prod.fst)
      ⟨[⟨"e1", some "Ada Lovelace", some (.jobj [])⟩],
        ⟨[⟨"e1", "person", some "Ada Lovelace", .jobj []⟩],
          [⟨fresh 1, "d", "e1", some (fresh 0),
            some [("name", "ada lovelace")], "exact", some 1⟩],
          [⟨"j", "d", "resolution",
            ⟨config_hash (fun _ => "h")
              ⟨[⟨none, [("name", "ada lovelace")]⟩], ["name"], none, none,
                none⟩, "m", 1, 0, 0, 0⟩⟩]⟩,
        ⟨0, 0, 0, 0⟩, 2⟩
      ⟨none, [("name", "ada lovelace")]⟩ "e1" (Or.inl rfl) hnot
      (by simp) hx
    have hstep : run_resolution (fun _ => []) (fun _ => "h") (fun _ => none)
        fresh 2 "m"
        ⟨[⟨"e1", "person", some "Ada Lovelace", .jobj []⟩],
          [⟨fresh 1, "d", "e1", some (fresh 0),
            some [("name", "ada lovelace")], "exact", some 1⟩],
          [⟨"j", "d", "resolution",
            ⟨config_hash (fun _ => "h")
              ⟨[⟨none, [("name", "ada lovelace")]⟩], ["name"], none, none,
                none⟩, "m", 1, 0, 0, 0⟩⟩]⟩
        ⟨"j", "d", "person",
          ⟨[⟨none, [("name", "ada lovelace")]⟩], ["name"], none, none,
            none⟩⟩ =
        (log_provenance
          (resolve_record (fun _ => []) fresh "d" "person" ["name"] ["name"]
            0.85 false
            ((load_existing_mappings
              ⟨[⟨"e1", "person", some "Ada Lovelace", .jobj []⟩],
                [⟨fresh 1, "d", "e1", some (fresh 0),
                  some [("name", "ada lovelace")], "exact", some 1⟩],
                [⟨"j", "d", "resolution",
                  ⟨config_hash (fun _ => "h")
                    ⟨[⟨none, [("name", "ada lovelace")]⟩], ["name"], none,
                      none, none⟩, "m", 1, 0, 0, 0⟩⟩]⟩ "d").map Prod.fst)
            ⟨[⟨"e1", some "Ada Lovelace", some (.jobj [])⟩],
              ⟨[⟨"e1", "person", some "Ada Lovelace", .jobj []⟩],
                [⟨fresh 1, "d", "e1", some (fresh 0),
                  some [("name", "ada lovelace")], "exact", some 1⟩],
                [⟨"j", "d", "resolution",
                  ⟨config_hash (fun _ => "h")
                    ⟨[⟨none, [("name", "ada lovelace")]⟩], ["name"], none,
                      none, none⟩, "m", 1, 0, 0, 0⟩⟩]⟩,
              ⟨0, 0, 0, 0⟩, 2⟩
            ⟨none, [("name", "ada lovelace")]⟩).db "j" "d"
          (config_hash (fun _ => "h")
            ⟨[⟨none, [("name", "ada lovelace")]⟩], ["name"], none, none,
              none⟩) "m"
          (resolve_record (fun _ => []) fresh "d" "person" ["name"] ["name"]
            0.85 false
            ((load_existing_mappings
              ⟨[⟨"e1", "person", some "Ada Lovelace", .jobj []⟩],
                [⟨fresh 1, "d", "e1", some (fresh 0),
                  some [("name", "ada lovelace")], "exact", some 1⟩],
                [⟨"j", "d", "resolution",
                  ⟨config_hash (fun _ => "h")
                    ⟨[⟨none, [("name", "ada lovelace")]⟩], ["name"], none,
                      none, none⟩, "m", 1, 0, 0, 0⟩⟩]⟩ "d").map Prod.fst)
            ⟨[⟨"e1", some "Ada Lovelace", some (.jobj [])⟩],
              ⟨[⟨"e1", "person", some "Ada Lovelace", .jobj []⟩],
                [⟨fresh 1, "d", "e1", some (fresh 0),
                  some [("name", "ada lovelace")], "exact", some 1⟩],
                [⟨"j", "d", "resolution",
                  ⟨config_hash (fun _ => "h")
                    ⟨[⟨none, [("name", "ada lovelace")]⟩], ["name"], none,
                      none, none⟩, "m", 1, 0, 0, 0⟩⟩]⟩,
              ⟨0, 0, 0, 0⟩, 2⟩
            ⟨none, [("name", "ada lovelace")]⟩).counts,
         (resolve_record (fun _ => []) fresh "d" "person" ["name"] ["name"]
            0.85 false
            ((load_existing_mappings
              ⟨[⟨"e1", "person", some "Ada Lovelace", .jobj []⟩],
                [⟨fresh 1, "d", "e1", some (fresh 0),
                  some [("name", "ada lovelace")], "exact", some 1⟩],
                [⟨"j", "d", "resolution",
                  ⟨config_hash (fun _ => "h")
                    ⟨[⟨none, [("name", "ada lovelace")]⟩], ["name"], none,
                      none, none⟩, "m", 1, 0, 0, 0⟩⟩]⟩ "d").map Prod.fst)
            ⟨[⟨"e1", some "Ada Lovelace", some (.jobj [])⟩],
              ⟨[⟨"e1", "person", some "Ada Lovelace", .jobj []⟩],
                [⟨fresh 1, "d", "e1", some (fresh 0),
                  some [("name", "ada lovelace")], "exact", some 1⟩],
                [⟨"j", "d", "resolution",
                  ⟨config_hash (fun _ => "h")
                    ⟨[⟨none, [("name", "ada lovelace")]⟩], ["name"], none,
                      none, none⟩, "m", 1, 0, 0, 0⟩⟩]⟩,
              ⟨0, 0, 0, 0⟩, 2⟩
            ⟨none, [("name", "ada lovelace")]⟩).counts) := rfl
    rw [hstep, hb]
    rw [upsert_of_no_mapping _ _ _ _ _ _ _ _ hm]
    rfl

/-- Witness for C10 with an explicit injective fresh-uuid supply. -/
theorem run_resolution_fresh_sid_rerun_witness :
    (run_resolution (fun _ => []) (fun _ => "h") (fun _ => none)
        (fun n => "u" ++ toString n) 0 "m"
        ⟨[⟨"e1", "person", some "Ada Lovelace", .jobj []⟩], [], []⟩
        ⟨"j", "d", "person",
          ⟨[⟨none, [("name", "ada lovelace")]⟩], ["name"], none, none,
            none⟩⟩).1.entity_map.map
        (fun r => (r.source_record_id, r.method, r.entity_id)) =
      [(some ("u" ++ toString 0), "exact", "e1")] :=
  (run_resolution_fresh_sid_rerun.2 (fun n => "u" ++ toString n)
    (by decide)).1

end Resolver
